import Mathlib

set_option maxRecDepth 10000

/-!
Shallow embedding of the TinyG 331.02 configuration engine
(src/firmware/tinyg_331.02/config.c) and proofs about its parameter
registry: the descriptor table `cfgArray`, the resolvers `cmd_get_index`
and `cmd_get_index_by_token`, the typed accessors `cmd_get` / `cmd_set`,
group expansion `_get_grp`, the command-line parser
`_parse_config_string` / `cfg_config_parse`, and the persistence and
migration pass `cfg_init`.

Modelling conventions:
- C doubles are embedded as rationals (ℚ); the arithmetic the claims
  exercise (copying, multiplication by the inch/mm factor, truncation to
  narrow integer types) is exact at the inputs the theorems use.
- C strings are embedded as `List Char`; reading a C string at an index
  past its end yields the NUL character, matching NUL-terminated reads.
- Numeric constants that live in headers that are not part of the
  source under verification (settings.h, config.h, tinyg.h) are taken
  from an environment `env : String → ℚ` keyed by the macro name, and
  a default value written literally in cfgArray is embedded literally.
-/

/-- NUL terminator character of C strings. -/
def NULC : Char := Char.ofNat 0

/-- Read a C string at an index: past the end one reads the NUL
terminator (config.c scans tokens this way, stopping at NUL). -/
def cAt (s : List Char) (j : ℕ) : Char := s.getD j NULC

/-- Value-type tag of a command object (`VALUE_TYPE_*` in config.h,
as used by config.c). -/
inductive VType where
  | null | int32 | float | strv | parent
  deriving DecidableEq, Repr

/-- GET binding of a descriptor: which `_get_*` function the cfgArray
row carries. -/
inductive GetKind where
  | ui8 | int | dbl | dbu | stat | vel | unit | sr | si | gc
  | abs | pos | am | grp | sys | qm
  deriving DecidableEq, Repr

/-- SET binding of a descriptor: which `_set_*` function the cfgArray
row carries. `serial` stands for `_set_ic/_set_il/_set_ec/_set_ee/_set_ex`,
which store the flag as a uint8 exactly like `_set_ui8` and additionally
toggle the transport option on the external xio collaborator (elided). -/
inductive SetKind where
  | nul | ui8 | int | dbl | dbu | sr | si | gcRun | serial | sa | mi | po | grp
  deriving DecidableEq, Repr

/-- Default value column of a cfgArray row: either a literal written in
config.c, or a named constant from a header outside the verified source
(settings.h / config.h), resolved through an environment. -/
inductive DefVal where
  | num (q : ℚ)
  | sym (s : String)
  deriving DecidableEq, Repr

/-- One row of cfgArray: the token and friendly-name fields of its
combined PROGMEM string, its get/set bindings and its default value.
The print binding and the format field of the combined string are not
modelled (no claim is about printing), and the target pointer is
modelled by the row's index itself: distinct rows have distinct targets
in config.c except for rows whose target is the write-only sink
`tg.null`, which no modelled operation reads or writes. -/
structure Descr where
  token : String
  name : String
  getk : GetKind
  setk : SetKind
  dflt : DefVal
  deriving DecidableEq, Repr

/-- Abbreviation for building a row. -/
def D (token name : String) (getk : GetKind) (setk : SetKind) (dflt : DefVal) : Descr :=
  ⟨token, name, getk, setk, dflt⟩

/-- The PROGMEM config array of config.c, in table order. Tokens and
names are transcribed from the `str_*` combined strings, including the
literal token text of `str_bjd` ("bcd") and `str_clv` ("cls"). -/
def cfgArray : List Descr := [
  D "fc" "config_v" .dbl .nul (.sym "TINYG_CONFIG_VERSION"),
  D "fv" "firmware_v" .dbl .nul (.sym "TINYG_VERSION_NUMBER"),
  D "fb" "firmware_b" .dbl .nul (.sym "TINYG_BUILD_NUMBER"),
  D "line" "line_number" .int .int (.num 0),
  D "stat" "machine_state" .stat .nul (.num 0),
  D "vel" "velocity" .vel .nul (.num 0),
  D "unit" "unit" .unit .nul (.num 0),
  D "sr" "status_r" .sr .sr (.num 0),
  D "si" "status_i" .si .si (.sym "STATUS_REPORT_INTERVAL_MS"),
  D "gc" "gcod" .gc .gcRun (.num 0),
  D "gpl" "gcode_pl" .ui8 .ui8 (.sym "GCODE_DEFAULT_PLANE"),
  D "gun" "gcode_u" .ui8 .ui8 (.sym "GCODE_DEFAULT_UNITS"),
  D "gco" "gcode_c" .ui8 .ui8 (.sym "GCODE_DEFAULT_COORD_SYSTEM"),
  D "gpa" "gcode_pa" .ui8 .ui8 (.sym "GCODE_DEFAULT_PATH_CONTROL"),
  D "gdi" "gcode_d" .ui8 .ui8 (.sym "GCODE_DEFAULT_DISTANCE_MODE"),
  D "ea" "enable_a" .ui8 .ui8 (.sym "ENABLE_ACCELERATION"),
  D "ja" "junc" .dbu .dbu (.sym "JUNCTION_ACCELERATION"),
  D "ml" "min_l" .dbu .dbu (.sym "MIN_LINE_LENGTH"),
  D "ma" "min_a" .dbu .dbu (.sym "MM_PER_ARC_SEGMENT"),
  D "mt" "min_s" .dbl .dbl (.sym "ESTD_SEGMENT_USEC"),
  D "ic" "ignore_c" .ui8 .serial (.sym "COM_IGNORE_RX_CR"),
  D "il" "ignore_l" .ui8 .serial (.sym "COM_IGNORE_RX_LF"),
  D "ec" "enable_c" .ui8 .serial (.sym "COM_APPEND_TX_CR"),
  D "ee" "enable_e" .ui8 .serial (.sym "COM_ENABLE_ECHO"),
  D "ex" "enable_x" .ui8 .serial (.sym "COM_ENABLE_XON"),
  D "1ma" "m1_ma" .ui8 .ui8 (.sym "M1_MOTOR_MAP"),
  D "1sa" "m1_s" .dbl .sa (.sym "M1_STEP_ANGLE"),
  D "1tr" "m1_tr" .dbl .sa (.sym "M1_TRAVEL_PER_REV"),
  D "1mi" "m1_mi" .ui8 .mi (.sym "M1_MICROSTEPS"),
  D "1po" "m1_pol" .ui8 .po (.sym "M1_POLARITY"),
  D "1pm" "m1_pow" .ui8 .ui8 (.sym "M1_POWER_MODE"),
  D "2ma" "m2_ma" .ui8 .ui8 (.sym "M2_MOTOR_MAP"),
  D "2sa" "m2_s" .dbl .sa (.sym "M2_STEP_ANGLE"),
  D "2tr" "m2_tr" .dbl .sa (.sym "M2_TRAVEL_PER_REV"),
  D "2mi" "m2_mi" .ui8 .mi (.sym "M2_MICROSTEPS"),
  D "2po" "m2_pol" .ui8 .po (.sym "M2_POLARITY"),
  D "2pm" "m2_pow" .ui8 .ui8 (.sym "M2_POWER_MODE"),
  D "3ma" "m3_ma" .ui8 .ui8 (.sym "M3_MOTOR_MAP"),
  D "3sa" "m3_s" .dbl .sa (.sym "M3_STEP_ANGLE"),
  D "3tr" "m3_tr" .dbl .sa (.sym "M3_TRAVEL_PER_REV"),
  D "3mi" "m3_mi" .ui8 .mi (.sym "M3_MICROSTEPS"),
  D "3po" "m3_pol" .ui8 .po (.sym "M3_POLARITY"),
  D "3pm" "m3_pow" .ui8 .ui8 (.sym "M3_POWER_MODE"),
  D "4ma" "m4_ma" .ui8 .ui8 (.sym "M4_MOTOR_MAP"),
  D "4sa" "m4_s" .dbl .sa (.sym "M4_STEP_ANGLE"),
  D "4tr" "m4_tr" .dbl .sa (.sym "M4_TRAVEL_PER_REV"),
  D "4mi" "m4_mi" .ui8 .mi (.sym "M4_MICROSTEPS"),
  D "4po" "m4_pol" .ui8 .po (.sym "M4_POLARITY"),
  D "4pm" "m4_pow" .ui8 .ui8 (.sym "M4_POWER_MODE"),
  D "xam" "x_a" .am .ui8 (.sym "X_AXIS_MODE"),
  D "xfr" "x_f" .dbu .dbu (.sym "X_FEEDRATE_MAX"),
  D "xvm" "x_v" .dbu .dbu (.sym "X_VELOCITY_MAX"),
  D "xtm" "x_t" .dbu .dbu (.sym "X_TRAVEL_MAX"),
  D "xjm" "x_je" .dbu .dbu (.sym "X_JERK_MAX"),
  D "xjd" "x_ju" .dbu .dbu (.sym "X_JUNCTION_DEVIATION"),
  D "xsm" "x_s" .ui8 .ui8 (.sym "X_SWITCH_MODE"),
  D "xsv" "x_s" .dbu .dbu (.sym "X_SEARCH_VELOCITY"),
  D "xlv" "x_l" .dbu .dbu (.sym "X_LATCH_VELOCITY"),
  D "xzo" "x_z" .dbu .dbu (.sym "X_ZERO_OFFSET"),
  D "xabs" "x_ab" .abs .nul (.num 0),
  D "xpos" "x_po" .pos .nul (.num 0),
  D "yam" "y_a" .am .ui8 (.sym "Y_AXIS_MODE"),
  D "yfr" "y_f" .dbu .dbu (.sym "Y_FEEDRATE_MAX"),
  D "yvm" "y_v" .dbu .dbu (.sym "Y_VELOCITY_MAX"),
  D "ytm" "y_t" .dbu .dbu (.sym "Y_TRAVEL_MAX"),
  D "yjm" "y_je" .dbu .dbu (.sym "Y_JERK_MAX"),
  D "yjd" "y_ju" .dbu .dbu (.sym "Y_JUNCTION_DEVIATION"),
  D "ysm" "y_s" .ui8 .ui8 (.sym "Y_SWITCH_MODE"),
  D "ysv" "y_s" .dbu .dbu (.sym "Y_SEARCH_VELOCITY"),
  D "ylv" "y_l" .dbu .dbu (.sym "Y_LATCH_VELOCITY"),
  D "yzo" "y_z" .dbu .dbu (.sym "Y_ZERO_OFFSET"),
  D "yabs" "y_ab" .abs .nul (.num 0),
  D "ypos" "y_po" .pos .nul (.num 0),
  D "zam" "z_a" .am .ui8 (.sym "Z_AXIS_MODE"),
  D "zfr" "z_f" .dbu .dbu (.sym "Z_FEEDRATE_MAX"),
  D "zvm" "z_v" .dbu .dbu (.sym "Z_VELOCITY_MAX"),
  D "ztm" "z_t" .dbu .dbu (.sym "Z_TRAVEL_MAX"),
  D "zjm" "z_je" .dbu .dbu (.sym "Z_JERK_MAX"),
  D "zjd" "z_ju" .dbu .dbu (.sym "Z_JUNCTION_DEVIATION"),
  D "zsm" "z_s" .ui8 .ui8 (.sym "Z_SWITCH_MODE"),
  D "zsv" "z_s" .dbu .dbu (.sym "Z_SEARCH_VELOCITY"),
  D "zlv" "z_l" .dbu .dbu (.sym "Z_LATCH_VELOCITY"),
  D "zzo" "z_z" .dbu .dbu (.sym "Z_ZERO_OFFSET"),
  D "zabs" "z_ab" .abs .nul (.num 0),
  D "zpos" "z_po" .pos .nul (.num 0),
  D "aam" "a_a" .am .ui8 (.sym "A_AXIS_MODE"),
  D "afr" "a_f" .dbl .dbl (.sym "A_FEEDRATE_MAX"),
  D "avm" "a_v" .dbl .dbl (.sym "A_VELOCITY_MAX"),
  D "atm" "a_t" .dbl .dbl (.sym "A_TRAVEL_MAX"),
  D "ajm" "a_je" .dbl .dbl (.sym "A_JERK_MAX"),
  D "ajd" "a_ju" .dbl .dbl (.sym "A_JUNCTION_DEVIATION"),
  D "ara" "a_r" .dbl .dbl (.sym "A_RADIUS"),
  D "asm" "a_s" .ui8 .ui8 (.sym "A_SWITCH_MODE"),
  D "asv" "a_s" .dbl .dbl (.sym "A_SEARCH_VELOCITY"),
  D "alv" "a_l" .dbl .dbl (.sym "A_LATCH_VELOCITY"),
  D "azo" "a_z" .dbl .dbl (.sym "A_ZERO_OFFSET"),
  D "aabs" "a_ab" .abs .nul (.num 0),
  D "apos" "a_po" .pos .nul (.num 0),
  D "bam" "b_a" .am .ui8 (.sym "B_AXIS_MODE"),
  D "bfr" "b_f" .dbl .dbl (.sym "B_FEEDRATE_MAX"),
  D "bvm" "b_v" .dbl .dbl (.sym "B_VELOCITY_MAX"),
  D "btm" "b_t" .dbl .dbl (.sym "B_TRAVEL_MAX"),
  D "bjm" "b_je" .dbl .dbl (.sym "B_JERK_MAX"),
  D "bcd" "b_ju" .dbl .dbl (.sym "B_JUNCTION_DEVIATION"),
  D "bra" "b_r" .dbl .dbl (.sym "B_RADIUS"),
  D "bsm" "b_s" .ui8 .ui8 (.sym "B_SWITCH_MODE"),
  D "bsv" "b_s" .dbl .dbl (.sym "B_SEARCH_VELOCITY"),
  D "blv" "b_l" .dbl .dbl (.sym "B_LATCH_VELOCITY"),
  D "bzo" "b_z" .dbl .dbl (.sym "B_ZERO_OFFSET"),
  D "babs" "b_ab" .abs .nul (.num 0),
  D "bpos" "b_po" .pos .nul (.num 0),
  D "cam" "c_a" .am .ui8 (.sym "C_AXIS_MODE"),
  D "cfr" "c_f" .dbl .dbl (.sym "C_FEEDRATE_MAX"),
  D "cvm" "c_v" .dbl .dbl (.sym "C_VELOCITY_MAX"),
  D "ctm" "c_t" .dbl .dbl (.sym "C_TRAVEL_MAX"),
  D "cjm" "c_je" .dbl .dbl (.sym "C_JERK_MAX"),
  D "cjd" "c_ju" .dbl .dbl (.sym "C_JUNCTION_DEVIATION"),
  D "cra" "c_r" .dbl .dbl (.sym "C_RADIUS"),
  D "csm" "c_s" .ui8 .ui8 (.sym "C_SWITCH_MODE"),
  D "csv" "c_s" .dbl .dbl (.sym "C_SEARCH_VELOCITY"),
  D "cls" "c_l" .dbl .dbl (.sym "C_LATCH_VELOCITY"),
  D "czo" "c_z" .dbl .dbl (.sym "C_ZERO_OFFSET"),
  D "cabs" "c_ab" .abs .nul (.num 0),
  D "cpos" "c_po" .pos .nul (.num 0),
  D "g54x" "g54_x" .dbu .dbu (.sym "G54_X_OFFSET"),
  D "g54y" "g54_y" .dbu .dbu (.sym "G54_Y_OFFSET"),
  D "g54z" "g54_z" .dbu .dbu (.sym "G54_Z_OFFSET"),
  D "g54a" "g54_a" .dbu .dbu (.sym "G54_A_OFFSET"),
  D "g54b" "g54_b" .dbu .dbu (.sym "G54_B_OFFSET"),
  D "g54c" "g54_c" .dbu .dbu (.sym "G54_C_OFFSET"),
  D "g55x" "g55_x" .dbu .dbu (.sym "G55_X_OFFSET"),
  D "g55y" "g55_y" .dbu .dbu (.sym "G55_Y_OFFSET"),
  D "g55z" "g55_z" .dbu .dbu (.sym "G55_Z_OFFSET"),
  D "g55a" "g55_a" .dbu .dbu (.sym "G55_A_OFFSET"),
  D "g55b" "g55_b" .dbu .dbu (.sym "G55_B_OFFSET"),
  D "g55c" "g55_c" .dbu .dbu (.sym "G55_C_OFFSET"),
  D "g56x" "g56_x" .dbu .dbu (.sym "G56_X_OFFSET"),
  D "g56y" "g56_y" .dbu .dbu (.sym "G56_Y_OFFSET"),
  D "g56z" "g56_z" .dbu .dbu (.sym "G56_Z_OFFSET"),
  D "g56a" "g56_a" .dbu .dbu (.sym "G56_A_OFFSET"),
  D "g56b" "g56_b" .dbu .dbu (.sym "G56_B_OFFSET"),
  D "g56c" "g56_c" .dbu .dbu (.sym "G56_C_OFFSET"),
  D "g57x" "g57_x" .dbu .dbu (.sym "G57_X_OFFSET"),
  D "g57y" "g57_y" .dbu .dbu (.sym "G57_Y_OFFSET"),
  D "g57z" "g57_z" .dbu .dbu (.sym "G57_Z_OFFSET"),
  D "g57a" "g57_a" .dbu .dbu (.sym "G57_A_OFFSET"),
  D "g57b" "g57_b" .dbu .dbu (.sym "G57_B_OFFSET"),
  D "g57c" "g57_c" .dbu .dbu (.sym "G57_C_OFFSET"),
  D "g58x" "g58_x" .dbu .dbu (.sym "G58_X_OFFSET"),
  D "g58y" "g58_y" .dbu .dbu (.sym "G58_Y_OFFSET"),
  D "g58z" "g58_z" .dbu .dbu (.sym "G58_Z_OFFSET"),
  D "g58a" "g58_a" .dbu .dbu (.sym "G58_A_OFFSET"),
  D "g58b" "g58_b" .dbu .dbu (.sym "G58_B_OFFSET"),
  D "g58c" "g58_c" .dbu .dbu (.sym "G58_C_OFFSET"),
  D "g59x" "g59_x" .dbu .dbu (.sym "G59_X_OFFSET"),
  D "g59y" "g59_y" .dbu .dbu (.sym "G59_Y_OFFSET"),
  D "g59z" "g59_z" .dbu .dbu (.sym "G59_Z_OFFSET"),
  D "g59a" "g59_a" .dbu .dbu (.sym "G59_A_OFFSET"),
  D "g59b" "g59_b" .dbu .dbu (.sym "G59_B_OFFSET"),
  D "g59c" "g59_c" .dbu .dbu (.sym "G59_C_OFFSET"),
  D "sr00" "sr00" .int .int (.num 0),
  D "sr01" "sr01" .int .int (.num 0),
  D "sr02" "sr02" .int .int (.num 0),
  D "sr03" "sr03" .int .int (.num 0),
  D "sr04" "sr04" .int .int (.num 0),
  D "sr05" "sr05" .int .int (.num 0),
  D "sr06" "sr06" .int .int (.num 0),
  D "sr07" "sr07" .int .int (.num 0),
  D "sr08" "sr08" .int .int (.num 0),
  D "sr09" "sr09" .int .int (.num 0),
  D "sr10" "sr10" .int .int (.num 0),
  D "sr11" "sr11" .int .int (.num 0),
  D "sr12" "sr12" .int .int (.num 0),
  D "sr13" "sr13" .int .int (.num 0),
  D "sr14" "sr14" .int .int (.num 0),
  D "sr15" "sr15" .int .int (.num 0),
  D "sr16" "sr16" .int .int (.num 0),
  D "sr17" "sr17" .int .int (.num 0),
  D "sr18" "sr18" .int .int (.num 0),
  D "sr19" "sr19" .int .int (.num 0),
  D "g54" "g54" .grp .grp (.num 0),
  D "g55" "g55" .grp .grp (.num 0),
  D "g56" "g56" .grp .grp (.num 0),
  D "g57" "g57" .grp .grp (.num 0),
  D "g58" "g58" .grp .grp (.num 0),
  D "g59" "g59" .grp .grp (.num 0),
  D "sys" "sys" .sys .grp (.num 0),
  D "?" "qm" .qm .nul (.num 0),
  D "x" "x" .grp .grp (.num 0),
  D "y" "y" .grp .grp (.num 0),
  D "z" "z" .grp .grp (.num 0),
  D "a" "a" .grp .grp (.num 0),
  D "b" "b" .grp .grp (.num 0),
  D "c" "c" .grp .grp (.num 0),
  D "1" "1" .grp .grp (.num 0),
  D "2" "2" .grp .grp (.num 0),
  D "3" "3" .grp .grp (.num 0),
  D "4" "4" .grp .grp (.num 0)]

/-- Table size, `CMD_INDEX_MAX` (sizeof cfgArray / sizeof(struct cfgItem)). -/
def CMD_INDEX_MAX : ℕ := cfgArray.length

/-- The `CMD_COUNT_STATUS` macro of config.c. -/
def CMD_COUNT_STATUS : ℕ := 20

/-- The `CMD_COUNT_GROUPS` macro of config.c. The table itself carries
18 group rows (g54..g59, sys, ?, x..c, 1..4), so this constant
undercounts them by one; the derived region bound below is what the
code actually uses. -/
def CMD_COUNT_GROUPS : ℕ := 17

/-- The `CMD_INDEX_START_GROUPS` macro: CMD_INDEX_MAX - CMD_COUNT_GROUPS. -/
def CMD_INDEX_START_GROUPS : ℕ := CMD_INDEX_MAX - CMD_COUNT_GROUPS

/-- The `CMD_INDEX_END_SINGLES` macro. -/
def CMD_INDEX_END_SINGLES : ℕ := CMD_INDEX_MAX - CMD_COUNT_STATUS - CMD_COUNT_GROUPS

example : CMD_INDEX_MAX = 198 := by decide
example : CMD_INDEX_START_GROUPS = 181 := by decide
example : (cfgArray.get? 180).map Descr.token = some "g54" := by decide
example : (cfgArray.get? 160).map Descr.token = some "sr00" := by decide
example : (cfgArray.get? 159).map Descr.token = some "g59c" := by decide

/-! ## Name and token resolution (cmd_get_index, cmd_get_index_by_token) -/

/-- First index of the table scan satisfying a test; this is the shape of
every linear scan loop in config.c (`for (i=0; i<CMD_INDEX_MAX; i++) ...
return(i); ... return (-1)`), with `none` standing for the C result -1. -/
def findIdxO {α : Type} (p : α → Bool) : List α → Option ℕ
  | [] => none
  | a :: l => if p a then some 0 else (findIdxO p l).map (· + 1)

theorem findIdxO_eq_some {α : Type} (p : α → Bool) (l : List α) (i : ℕ) :
    findIdxO p l = some i ↔
      (∃ a, l[i]? = some a ∧ p a = true) ∧
        ∀ j, j < i → ∀ b, l[j]? = some b → p b = false := by
  induction l generalizing i with
  | nil => simp [findIdxO]
  | cons a l ih =>
    cases hpa : p a with
    | true =>
      constructor
      · intro h
        simp only [findIdxO, hpa, if_true, Option.some.injEq] at h
        subst h
        exact ⟨⟨a, by simp, hpa⟩, by omega⟩
      · rintro ⟨⟨b, hb, hpb⟩, hmin⟩
        cases i with
        | zero => simp [findIdxO, hpa]
        | succ k =>
          have := hmin 0 (Nat.succ_pos k) a (by simp)
          rw [hpa] at this
          exact absurd this (by simp)
    | false =>
      cases i with
      | zero =>
        constructor
        · intro h
          simp [findIdxO, hpa] at h
        · rintro ⟨⟨b, hb, hpb⟩, _⟩
          simp only [List.getElem?_cons_zero, Option.some.injEq] at hb
          subst hb
          rw [hpa] at hpb
          exact absurd hpb (by simp)
      | succ k =>
        constructor
        · intro h
          simp only [findIdxO, hpa, if_false, Bool.false_eq_true, Option.map_eq_some'] at h
          obtain ⟨m, hm, hmk⟩ := h
          have hk : m = k := by omega
          rw [hk] at hm
          obtain ⟨hsome, hmin⟩ := (ih k).mp hm
          refine ⟨by simpa using hsome, ?_⟩
          intro j hj b hb
          cases j with
          | zero =>
            simp only [List.getElem?_cons_zero, Option.some.injEq] at hb
            subst hb
            exact hpa
          | succ m =>
            exact hmin m (by omega) b (by simpa using hb)
        · rintro ⟨⟨b, hb, hpb⟩, hmin⟩
          have hrec : findIdxO p l = some k := by
            refine (ih k).mpr ⟨⟨b, by simpa using hb, hpb⟩, ?_⟩
            intro j hj c hc
            exact hmin (j+1) (by omega) c (by simpa using hc)
          simp [findIdxO, hpa, hrec]

theorem findIdxO_eq_none {α : Type} (p : α → Bool) (l : List α) :
    findIdxO p l = none ↔ ∀ a ∈ l, p a = false := by
  induction l with
  | nil => simp [findIdxO]
  | cons a l ih =>
    cases hpa : p a with
    | true => simp [findIdxO, hpa]
    | false =>
      simp only [findIdxO, hpa, if_false, Bool.false_eq_true, Option.map_eq_none', ih,
        List.mem_cons]
      constructor
      · intro h b hb
        rcases hb with hb | hb
        · subst hb; exact hpa
        · exact h b hb
      · intro h b hb
        exact h b (Or.inr hb)

/-- Match test of one iteration of cmd_get_index: `strstr(str, token) == str`
holds exactly when the stored token occurs at the start of the input,
i.e. the stored token is a prefix of the input; likewise for the
friendly name. -/
def nameScanMatch (s : List Char) (d : Descr) : Bool :=
  d.token.toList.isPrefixOf s || d.name.toList.isPrefixOf s

/-- The general resolver `cmd_get_index` of config.c: scan the table in
index order, returning the first index whose token or friendly name is
a leading substring of the input (`none` embeds the C return -1). -/
def cmd_get_index (s : List Char) : Option ℕ := findIdxO (nameScanMatch s) cfgArray

/-- First four characters of a row's combined PROGMEM string
"token,name,format...", which is all `cmd_get_index_by_token` reads
(`strncpy_P(token, ..., CMD_TOKEN_LEN)` with CMD_TOKEN_LEN = 4). Tokens
have at most 4 and names at least 1 character, so positions 0..3 fall
inside this fragment. -/
def combined4 (d : Descr) : List Char :=
  d.token.toList ++ ',' :: (d.name.toList ++ [','])

/-- Match test of one iteration of cmd_get_index_by_token, comparing the
input character-by-character against the head of the combined string:
mismatch in the first two characters rejects; a ',' in the combined
string meeting the input's NUL accepts (2- or 3-character token fully
matched); otherwise the third and fourth characters must agree, and
agreement through position 3 accepts without looking further. -/
def tokScanMatch (d : Descr) (s : List Char) : Bool :=
  let t := combined4 d
  if cAt t 0 = cAt s 0 ∧ cAt t 1 = cAt s 1 then
    if cAt t 2 = ',' ∧ cAt s 2 = NULC then true
    else if cAt t 2 = cAt s 2 then
      if cAt t 3 = ',' ∧ cAt s 3 = NULC then true
      else if cAt t 3 = cAt s 3 then true
      else false
    else false
  else false

/-- The token resolver `cmd_get_index_by_token` of config.c. -/
def cmd_get_index_by_token (s : List Char) : Option ℕ :=
  findIdxO (fun d => tokScanMatch d s) cfgArray

/-- Placeholder row used only to totalize index lookup. -/
def dummyDescr : Descr := D "" "" .dbl .nul (.num 0)

/-- Row of cfgArray at an index (total, for stating scan results). -/
def descrAt (i : ℕ) : Descr := cfgArray.getD i dummyDescr

theorem getQ_descrAt (i : ℕ) (h : i < CMD_INDEX_MAX) : cfgArray[i]? = some (descrAt i) := by
  rw [descrAt, List.getD_eq_getElem?_getD, List.getElem?_eq_getElem h]
  rfl

theorem getQ_descrAt_iff (i : ℕ) (d : Descr) :
    cfgArray[i]? = some d ↔ i < CMD_INDEX_MAX ∧ descrAt i = d := by
  constructor
  · intro h
    have hlt : i < CMD_INDEX_MAX := by
      by_contra hge
      rw [List.getElem?_eq_none (by simpa [CMD_INDEX_MAX] using Nat.le_of_not_lt hge)] at h
      exact Option.noConfusion h
    refine ⟨hlt, ?_⟩
    have hq := getQ_descrAt i hlt
    rw [h] at hq
    exact Option.some_injective _ hq.symm
  · rintro ⟨hlt, rfl⟩
    exact getQ_descrAt i hlt

example : descrAt 50 = D "xfr" "x_f" .dbu .dbu (.sym "X_FEEDRATE_MAX") := by decide

/-! ## Claim C3: general resolver match direction -/

theorem nameScanMatch_true_iff (s : List Char) (d : Descr) :
    nameScanMatch s d = true ↔ (d.token.toList <+: s ∨ d.name.toList <+: s) := by
  simp [nameScanMatch, List.isPrefixOf_iff_prefix]

theorem nameScanMatch_false_iff (s : List Char) (d : Descr) :
    nameScanMatch s d = false ↔ ¬(d.token.toList <+: s ∨ d.name.toList <+: s) := by
  rw [← Bool.not_eq_true, nameScanMatch_true_iff]

/-- Claim C3, counterexample. The claim predicts that `cmd_get_index`
returns the least index whose stored token or friendly name has the
input as a prefix, and fails (-1) when no descriptor satisfies that.
On input "fc1" no stored token and no stored friendly name has "fc1"
as a prefix, so the claim predicts failure; the code instead matches
in the opposite direction (stored string a prefix of the input) and
returns index 0, whose token "fc" heads "fc1". -/
theorem c3_counterexample :
    cmd_get_index ("fc1".toList) = some 0 ∧
    ∀ i, i < CMD_INDEX_MAX →
      ¬("fc1".toList <+: (descrAt i).token.toList) ∧
      ¬("fc1".toList <+: (descrAt i).name.toList) := by decide

/-- Claim C3 (amended): for every input string s, `cmd_get_index`
returns the least descriptor index i such that descriptor i's stored
token is a prefix of s or descriptor i's stored friendly name is a
prefix of s, and returns the unrecognized-parameter failure (-1,
embedded as `none`) exactly when no descriptor satisfies that
condition. -/
theorem c3_theorem (s : List Char) :
    (∀ i, cmd_get_index s = some i ↔
      (i < CMD_INDEX_MAX ∧
        ((descrAt i).token.toList <+: s ∨ (descrAt i).name.toList <+: s) ∧
        ∀ j, j < i →
          ¬((descrAt j).token.toList <+: s ∨ (descrAt j).name.toList <+: s))) ∧
    (cmd_get_index s = none ↔
      ∀ i, i < CMD_INDEX_MAX →
        ¬((descrAt i).token.toList <+: s ∨ (descrAt i).name.toList <+: s)) := by
  constructor
  · intro i
    rw [cmd_get_index, findIdxO_eq_some]
    constructor
    · rintro ⟨⟨d, hd, hpd⟩, hmin⟩
      obtain ⟨hlt, rfl⟩ := (getQ_descrAt_iff i d).mp hd
      refine ⟨hlt, (nameScanMatch_true_iff s _).mp hpd, ?_⟩
      intro j hj
      have hjlt : j < CMD_INDEX_MAX := lt_trans hj hlt
      exact (nameScanMatch_false_iff s _).mp (hmin j hj (descrAt j) (getQ_descrAt j hjlt))
    · rintro ⟨hlt, hm, hmin⟩
      refine ⟨⟨descrAt i, getQ_descrAt i hlt, (nameScanMatch_true_iff s _).mpr hm⟩, ?_⟩
      intro j hj b hb
      obtain ⟨hjlt, rfl⟩ := (getQ_descrAt_iff j b).mp hb
      exact (nameScanMatch_false_iff s _).mpr (hmin j hj)
  · rw [cmd_get_index, findIdxO_eq_none]
    constructor
    · intro h i hlt
      have hmem : descrAt i ∈ cfgArray := List.getElem?_mem (getQ_descrAt i hlt)
      exact (nameScanMatch_false_iff s _).mp (h (descrAt i) hmem)
    · intro h d hd
      obtain ⟨i, hdi⟩ := List.mem_iff_getElem?.mp hd
      obtain ⟨hlt, rfl⟩ := (getQ_descrAt_iff i d).mp hdi
      exact (nameScanMatch_false_iff s _).mpr (h i hlt)

/-- Witness for c3_theorem: the token "xfr" resolves to index 50, by
the amended characterization applied at a concrete input. -/
theorem c3_witness : cmd_get_index ("xfr".toList) = some 50 :=
  ((c3_theorem ("xfr".toList)).1 50).mpr (by decide)

/-! ## Claim C4: token resolver exactness -/

theorem cAt_lt {s : List Char} {j : ℕ} (h : j < s.length) : cAt s j = s[j] := by
  simp [cAt, List.getD, List.getElem?_eq_getElem h]

theorem cAt_ge {s : List Char} {j : ℕ} (h : s.length ≤ j) : cAt s j = NULC := by
  simp [cAt, List.getD, List.getElem?_eq_none h]

theorem cAt_mem {s : List Char} {j : ℕ} (h : j < s.length) : cAt s j ∈ s := by
  rw [cAt_lt h]
  exact List.getElem_mem h

theorem cAt_nul_iff {s : List Char} (hn : NULC ∉ s) (j : ℕ) :
    cAt s j = NULC ↔ s.length ≤ j := by
  constructor
  · intro h
    by_contra hlt
    have hj : j < s.length := Nat.lt_of_not_le hlt
    exact hn (h ▸ cAt_mem hj)
  · exact cAt_ge

theorem cAt_ne_comma {s : List Char} (hc : ',' ∉ s) (j : ℕ) : cAt s j ≠ ',' := by
  intro h
  by_cases hj : j < s.length
  · exact hc (h ▸ cAt_mem hj)
  · rw [cAt_ge (Nat.le_of_not_lt hj)] at h
    exact absurd h (by decide)

theorem eq_of_cAt {s t : List Char} (hlen : s.length = t.length)
    (h : ∀ k, k < t.length → cAt s k = cAt t k) : s = t := by
  apply List.ext_getElem hlen
  intro k h1 h2
  have := h k h2
  rw [cAt_lt h1, cAt_lt h2] at this
  simpa using this

/-- Character-level match loop body of cmd_get_index_by_token, on the
first characters t of the combined string and the input s. -/
def tokScanMatchL (t s : List Char) : Bool :=
  if cAt t 0 = cAt s 0 ∧ cAt t 1 = cAt s 1 then
    if cAt t 2 = ',' ∧ cAt s 2 = NULC then true
    else if cAt t 2 = cAt s 2 then
      if cAt t 3 = ',' ∧ cAt s 3 = NULC then true
      else if cAt t 3 = cAt s 3 then true
      else false
    else false
  else false

theorem tokScanMatch_eq (d : Descr) (s : List Char) :
    tokScanMatch d s = tokScanMatchL (combined4 d) s := rfl

theorem length_le_of_cAt_ne {s : List Char} {j : ℕ} (h : cAt s j ≠ NULC) : j < s.length := by
  by_contra hge
  exact h (cAt_ge (Nat.le_of_not_lt hge))

/-- Soundness of the character-level token match for a well-formed
token field: a comma-free, NUL-free input matches only if it equals a
2- or 3-character token outright, or agrees with a 4-character token on
the first four characters (longer inputs still match in that case). -/
theorem tokScanMatchL_sound (tokL nmL s : List Char)
    (ht2 : 2 ≤ tokL.length) (ht4 : tokL.length ≤ 4)
    (htc : ',' ∉ tokL) (htn : NULC ∉ tokL)
    (hsc : ',' ∉ s) (hsn : NULC ∉ s)
    (hm : tokScanMatchL (tokL ++ ',' :: (nmL ++ [','])) s) :
    (tokL.length ≤ 3 ∧ s = tokL) ∨ (tokL.length = 4 ∧ s.take 4 = tokL) := by
  match tokL, ht2, ht4 with
  | [a, b], _, _ =>
    left
    refine ⟨by simp, ?_⟩
    simp only [List.cons_append, List.nil_append] at hm
    rw [tokScanMatchL] at hm
    have hta : cAt (a :: b :: ',' :: (nmL ++ [','])) 0 = a := rfl
    have htb : cAt (a :: b :: ',' :: (nmL ++ [','])) 1 = b := rfl
    have htcm : cAt (a :: b :: ',' :: (nmL ++ [','])) 2 = ',' := rfl
    rw [hta, htb, htcm] at hm
    split_ifs at hm with h01 hA hB hC hD
    · -- 2-char accept: s ends exactly after two characters
      have hs2 : s.length ≤ 2 := (cAt_nul_iff hsn 2).mp hA.2
      have hb_ne : b ≠ NULC := fun h => htn (by simp [h])
      have hs1 : 1 < s.length := length_le_of_cAt_ne (fun h => hb_ne (h01.2.trans h))
      have hlen : s.length = 2 := by omega
      refine eq_of_cAt (by simpa using hlen) ?_
      intro k hk
      have hk2 : k < 2 := by simpa using hk
      interval_cases k
      · exact h01.1.symm
      · exact h01.2.symm
    · -- third combined character is the comma; a comma-free input
      -- cannot continue matching past it
      exact absurd hB.symm (cAt_ne_comma hsc 2)
    · exact absurd hB.symm (cAt_ne_comma hsc 2)
  | [a, b, c], _, _ =>
    left
    refine ⟨by simp, ?_⟩
    simp only [List.cons_append, List.nil_append] at hm
    rw [tokScanMatchL] at hm
    have hta : cAt (a :: b :: c :: ',' :: (nmL ++ [','])) 0 = a := rfl
    have htb : cAt (a :: b :: c :: ',' :: (nmL ++ [','])) 1 = b := rfl
    have htc3 : cAt (a :: b :: c :: ',' :: (nmL ++ [','])) 2 = c := rfl
    have htcm : cAt (a :: b :: c :: ',' :: (nmL ++ [','])) 3 = ',' := rfl
    rw [hta, htb, htc3, htcm] at hm
    have hc_ne : c ≠ ',' := fun h => htc (by simp [h])
    split_ifs at hm with h01 hA hB hC hD
    · exact absurd hA.1 hc_ne
    · -- 3-char accept
      have hs3 : s.length ≤ 3 := (cAt_nul_iff hsn 3).mp hC.2
      have hcn : c ≠ NULC := fun h => htn (by simp [h])
      have hs2 : 2 < s.length := length_le_of_cAt_ne (fun h => hcn (hB.trans h))
      have hlen : s.length = 3 := by omega
      refine eq_of_cAt (by simpa using hlen) ?_
      intro k hk
      have hk3 : k < 3 := by simpa using hk
      interval_cases k
      · exact h01.1.symm
      · exact h01.2.symm
      · exact hB.symm
    · exact absurd hD.symm (cAt_ne_comma hsc 3)
  | [a, b, c, e], _, _ =>
    right
    refine ⟨by simp, ?_⟩
    simp only [List.cons_append, List.nil_append] at hm
    rw [tokScanMatchL] at hm
    have hta : cAt (a :: b :: c :: e :: ',' :: (nmL ++ [','])) 0 = a := rfl
    have htb : cAt (a :: b :: c :: e :: ',' :: (nmL ++ [','])) 1 = b := rfl
    have htc3 : cAt (a :: b :: c :: e :: ',' :: (nmL ++ [','])) 2 = c := rfl
    have hte : cAt (a :: b :: c :: e :: ',' :: (nmL ++ [','])) 3 = e := rfl
    rw [hta, htb, htc3, hte] at hm
    have hc_ne : c ≠ ',' := fun h => htc (by simp [h])
    have he_ne : e ≠ ',' := fun h => htc (by simp [h])
    split_ifs at hm with h01 hA hB hC hD
    · exact absurd hA.1 hc_ne
    · exact absurd hC.1 he_ne
    · -- 4-char accept: the scan compares nothing past position 3
      have hen : e ≠ NULC := fun h => htn (by simp [h])
      have hs3 : 3 < s.length := length_le_of_cAt_ne (fun h => hen (hD.trans h))
      have hlen4 : (s.take 4).length = 4 := by
        simp [List.length_take]
        omega
      refine eq_of_cAt (by simpa using hlen4) ?_
      intro k hk
      have hk4 : k < 4 := by simpa using hk
      have hks : k < s.length := by omega
      have htake : cAt (s.take 4) k = cAt s k := by
        rw [cAt_lt (by omega : k < (s.take 4).length), cAt_lt hks]
        exact List.getElem_take s
      rw [htake]
      interval_cases k
      · exact h01.1.symm
      · exact h01.2.symm
      · exact hB.symm
      · exact hD.symm

theorem tokScanMatchL_one (q : Char) (nmL s : List Char) (hsc : ',' ∉ s)
    (hm : tokScanMatchL (q :: ',' :: (nmL ++ [','])) s) : False := by
  rw [tokScanMatchL] at hm
  have ht1 : cAt (q :: ',' :: (nmL ++ [','])) 1 = ',' := rfl
  rw [ht1] at hm
  split_ifs at hm with h01 hA hB hC hD <;>
    exact absurd h01.2.symm (cAt_ne_comma hsc 1)

/-- Shape facts about each token field of cfgArray: each token has 2 to
4 characters, none of them a comma or NUL, except the 1-character group
tokens ("?", the axis letters, the motor digits). -/
def tokOK (d : Descr) : Prop :=
  (2 ≤ d.token.toList.length ∧ d.token.toList.length ≤ 4 ∧
    ',' ∉ d.token.toList ∧ NULC ∉ d.token.toList) ∨ d.token.toList.length = 1

instance (d : Descr) : Decidable (tokOK d) := by
  unfold tokOK
  infer_instance

theorem tableTokOK : ∀ i, i < CMD_INDEX_MAX → tokOK (descrAt i) := by decide

/-- Claim C4, counterexample. The claim says an input of which a stored
token is a proper prefix never matches that token; but for the
4-character token "line" (index 3) the scan accepts after comparing
only four characters, so the longer input "linex" resolves to index 3. -/
theorem c4_counterexample :
    cmd_get_index_by_token ("linex".toList) = some 3 ∧
    (descrAt 3).token = "line" ∧
    ("linex" : String) ≠ "line" ∧
    "line".toList <+: "linex".toList := by decide

/-- Claim C4 (amended): for every comma-free, NUL-free input s, the
token resolver returns index i only when s equals descriptor i's token
exactly (for tokens of 2 or 3 characters), or when s agrees with a
4-character token on its first four characters — in the 4-character
case an input that properly extends the token still matches it. -/
theorem c4_theorem (s : List Char) (hsc : ',' ∉ s) (hsn : NULC ∉ s) (i : ℕ)
    (hres : cmd_get_index_by_token s = some i) :
    i < CMD_INDEX_MAX ∧
      (((descrAt i).token.toList.length ≤ 3 ∧ s = (descrAt i).token.toList) ∨
        ((descrAt i).token.toList.length = 4 ∧ s.take 4 = (descrAt i).token.toList)) := by
  rw [cmd_get_index_by_token, findIdxO_eq_some] at hres
  obtain ⟨⟨d, hd, hpd⟩, -⟩ := hres
  obtain ⟨hlt, rfl⟩ := (getQ_descrAt_iff i d).mp hd
  refine ⟨hlt, ?_⟩
  rw [tokScanMatch_eq] at hpd
  rcases tableTokOK i hlt with ⟨h2, h4, hc, hn⟩ | h1
  · exact tokScanMatchL_sound _ (descrAt i).name.toList s h2 h4 hc hn hsc hsn hpd
  · exfalso
    rcases hl : (descrAt i).token.toList with - | ⟨q, rest⟩
    · rw [hl] at h1
      simp at h1
    · rw [hl] at h1
      simp only [List.length_cons, Nat.add_left_eq_self] at h1
      have hrest : rest = [] := List.length_eq_zero.mp h1
      subst hrest
      have hcm : combined4 (descrAt i) = q :: ',' :: ((descrAt i).name.toList ++ [',']) := by
        rw [combined4, hl]
        rfl
      rw [hcm] at hpd
      exact tokScanMatchL_one q (descrAt i).name.toList s hsc hpd

/-- Witness for c4_theorem at the concrete input "linex" (which
resolves to index 3, the 4-character token "line"). -/
theorem c4_witness :
    3 < CMD_INDEX_MAX ∧
      (((descrAt 3).token.toList.length ≤ 3 ∧ "linex".toList = (descrAt 3).token.toList) ∨
        ((descrAt 3).token.toList.length = 4 ∧
          "linex".toList.take 4 = (descrAt 3).token.toList)) :=
  c4_theorem ("linex".toList) (by decide) (by decide) 3 (by decide)

/-! ## Machine state and the typed accessors (cmd_get / cmd_set) -/

/-- Linear units mode of the canonical machine, as consulted by
cm_get_units_mode. Modelled from the spec: canonical_machine.h is not
part of the verified source; the spec fixes two linear unit modes,
millimeter and inch (only equality with the inch mode is ever tested
by the accessors). -/
inductive UnitsMode where
  | inch | mm
  deriving DecidableEq, Repr

/-- Millimeters per inch (MM_PER_INCH of tinyg.h, not part of the
verified source). Modelled from the spec: conversion is by the factor
25.4 mm per inch. -/
def MM_PER_INCH : ℚ := 254 / 10

/-- Inches per millimeter (INCH_PER_MM). Modelled from the spec: the
inverse factor 1/25.4. -/
def INCH_PER_MM : ℚ := 10 / 254

/-- Truncation of a double toward zero, the C behavior of a cast to an
integer type. -/
def truncQ (v : ℚ) : ℤ := if 0 ≤ v then ⌊v⌋ else -⌊-v⌋

/-- Cast of a double to uint8_t ((uint8_t)cmd->value): truncation
toward zero. A cast of an out-of-range double is undefined behavior in
C; the model wraps, and the theorems only use in-range values. -/
def asU8 (v : ℚ) : ℚ := ((truncQ v % 256 : ℤ) : ℚ)

/-- Cast of a double to uint32_t, as asU8. -/
def asU32 (v : ℚ) : ℚ := ((truncQ v % 4294967296 : ℤ) : ℚ)

/-- Live machine state visible to the configuration engine. `vals i` is
the value stored at descriptor i's target location (targets of distinct
rows are distinct variables in the cfg/cm/gm structs, except the
`tg.null` sink, which no modelled operation reads or writes); `spu m`
is cfg.m[m].steps_per_unit; `units` is gm.units_mode; `nvm i` is the
durable EEPROM slot for index i (the byte address
nvm_profile_base + i * NVM_VALUE_LEN abstracted to slot indexing);
`ext i` stands for the external motion-subsystem reads (runtime
velocity and positions) consumed by _get_vel / _get_abs / _get_pos. -/
structure MState where
  vals : ℕ → ℚ
  spu : ℕ → ℚ
  units : UnitsMode
  nvm : ℕ → ℚ
  ext : ℕ → ℚ

/-- Pointwise update of an index-addressed store. -/
def upd (f : ℕ → ℚ) (k : ℕ) (v : ℚ) : ℕ → ℚ := fun j => if j = k then v else f j

theorem upd_same (f : ℕ → ℚ) (k : ℕ) (v : ℚ) : upd f k v k = v := by simp [upd]

theorem upd_other (f : ℕ → ℚ) (k : ℕ) (v : ℚ) (j : ℕ) (h : j ≠ k) : upd f k v j = f j := by
  simp [upd, h]

/-- Default-value column lookup, resolving named header constants
through the environment. -/
def defVal (env : String → ℚ) (d : Descr) : ℚ :=
  match d.dflt with
  | .num q => q
  | .sym s => env s

/-- The `_get_motor` helper: motor number (0-based) from the leading
character of the combined string, which is the token's first character. -/
def getMotor (i : ℕ) : Option ℕ :=
  match cAt (descrAt i).token.toList 0 with
  | '1' => some 0
  | '2' => some 1
  | '3' => some 2
  | '4' => some 3
  | _ => none

/-- Rows holding motor m's step_angle / travel_rev / microsteps: the
motor block starts at row 25 with six rows per motor, and the targets
of these rows are the cfg.m[m] fields _set_motor_steps_per_unit reads. -/
def saIdx (m : ℕ) : ℕ := 26 + 6 * m

/-- Travel-per-revolution row of motor m. -/
def trIdx (m : ℕ) : ℕ := 27 + 6 * m

/-- Microsteps row of motor m. -/
def miIdx (m : ℕ) : ℕ := 28 + 6 * m

/-- `_set_motor_steps_per_unit`: recompute the derived steps-per-unit
of motor m as 360 / (step_angle / microsteps) / travel_rev from the
live values. -/
def setSPU (st : MState) (m : ℕ) : MState :=
  { st with
    spu := upd st.spu m
      (360 / (st.vals (saIdx m) / st.vals (miIdx m)) / st.vals (trIdx m)) }

/-- `_set_si` clamp of the requested interval to
[STATUS_REPORT_MIN_MS, STATUS_REPORT_MAX_MS]; the bounds live in
headers outside the verified source and come from the environment. -/
def siClamp (env : String → ℚ) (v : ℚ) : ℚ :=
  if v < env "STATUS_REPORT_MIN_MS" then env "STATUS_REPORT_MIN_MS"
  else if v > env "STATUS_REPORT_MAX_MS" then env "STATUS_REPORT_MAX_MS"
  else v

/-- `_set_si` tick conversion: (uint8_t)ceil(value / (ESTD_SEGMENT_USEC / 1000)). -/
def siTicks (env : String → ℚ) (v : ℚ) : ℚ :=
  asU8 (Int.ceil (v / (env "ESTD_SEGMENT_USEC" / 1000)) : ℤ)

/-- The `cmd_set` dispatch of config.c on a single command object
carrying value v: returns the updated machine state and the (possibly
updated, by the _set_si clamp) value field of the command object.
Out-of-range indices leave the state unchanged (the C function returns
TG_UNRECOGNIZED_COMMAND). The chain-walking setters _set_sr and
_set_grp are modelled at this call shape: every modelled call site
(cfg_init and cfg_config_parse) passes an object freshly built by
cmd_new_object / the line parser whose `nx` link is NULL, so those
setters walk an empty chain and store nothing. The external side
effects of _run_gc (gcode interpreter), _set_mi / _set_po (stepper
driver) and the serial setters (xio transport) are elided. -/
def cmd_set (env : String → ℚ) (i : ℕ) (v : ℚ) (st : MState) : MState × ℚ :=
  if i < CMD_INDEX_MAX then
    match (descrAt i).setk with
    | .nul => (st, v)
    | .ui8 => ({ st with vals := upd st.vals i (asU8 v) }, v)
    | .int => ({ st with vals := upd st.vals i (asU32 v) }, v)
    | .dbl => ({ st with vals := upd st.vals i v }, v)
    | .dbu =>
        if st.units = .inch then ({ st with vals := upd st.vals i (v * MM_PER_INCH) }, v)
        else ({ st with vals := upd st.vals i v }, v)
    | .serial => ({ st with vals := upd st.vals i (asU8 v) }, v)
    | .sa =>
        let st1 := { st with vals := upd st.vals i v }
        (match getMotor i with
          | some m => setSPU st1 m
          | none => st1, v)
    | .mi =>
        let st1 := { st with vals := upd st.vals i (asU8 v) }
        (match getMotor i with
          | some m => setSPU st1 m
          | none => st1, v)
    | .po => ({ st with vals := upd st.vals i (asU8 v) }, v)
    | .si =>
        let c := siClamp env v
        ({ st with vals := upd st.vals i (siTicks env c) }, c)
    | .sr => (st, v)
    | .gcRun => (st, v)
    | .grp => (st, v)
  else (st, v)

/-- The `cmd_get` dispatch of config.c: the value and value-type tag
the GET binding writes into a fresh command object (string payloads of
the enumerated getters are not modelled beyond the type tag; _get_sr
runs the external status report and leaves the fresh object's zero
value and null type alone; the group getters are modelled separately
by getGrp below and here only tag the object as a parent). -/
def cmd_get (env : String → ℚ) (i : ℕ) (st : MState) : ℚ × VType :=
  if i < CMD_INDEX_MAX then
    match (descrAt i).getk with
    | .ui8 => (st.vals i, .int32)
    | .int => (st.vals i, .int32)
    | .dbl => (st.vals i, .float)
    | .dbu =>
        if st.units = .inch then (st.vals i * INCH_PER_MM, .float)
        else (st.vals i, .float)
    | .stat => (st.vals i, .strv)
    | .unit => (st.vals i, .strv)
    | .am => (st.vals i, .int32)
    | .si => (st.vals i * (env "ESTD_SEGMENT_USEC" / 1000), .int32)
    | .vel => (if st.units = .inch then st.ext i * INCH_PER_MM else st.ext i, .float)
    | .abs => (st.ext i, .float)
    | .pos => (st.ext i, .float)
    | .gc => (0, .strv)
    | .sr => (0, .null)
    | .grp => (0, .parent)
    | .sys => (0, .parent)
    | .qm => (0, .parent)
  else (0, .null)

/-- The cm_set_units_mode collaborator call: writes gm.units_mode and
nothing else. Modelled from the spec: canonical_machine.c is not part
of the verified source; the spec states that conversion happens only
inside get/set and never on a mode change. -/
def setUnitsMode (u : UnitsMode) (st : MState) : MState := { st with units := u }

/-! ## Claim C5: set-then-get round trip -/

/-- Set/get binding pairs whose SET stores the value into the same
target location the GET reads back: the plain stores (ui8, int32,
double, double-with-units), the serial flag setters, the motor setters
(step-angle / travel-per-rev, microsteps, polarity) and the axis-mode
rows (set ui8, get am). -/
def roundtripKind (d : Descr) : Prop :=
  (d.setk = .ui8 ∧ (d.getk = .ui8 ∨ d.getk = .am)) ∨
  (d.setk = .int ∧ d.getk = .int) ∨
  (d.setk = .dbl ∧ d.getk = .dbl) ∨
  (d.setk = .dbu ∧ d.getk = .dbu) ∨
  (d.setk = .serial ∧ d.getk = .ui8) ∨
  (d.setk = .sa ∧ d.getk = .dbl) ∨
  (d.setk = .mi ∧ d.getk = .ui8) ∨
  (d.setk = .po ∧ d.getk = .ui8)

instance (d : Descr) : Decidable (roundtripKind d) := by
  unfold roundtripKind
  infer_instance

/-- Representation narrowing performed by a SET binding on the stored
value. -/
def narrowOf (k : SetKind) (v : ℚ) : ℚ :=
  match k with
  | .ui8 | .serial | .mi | .po => asU8 v
  | .int => asU32 v
  | _ => v

theorem mm_inch_inverse : MM_PER_INCH * INCH_PER_MM = 1 := by
  rw [MM_PER_INCH, INCH_PER_MM]
  norm_num

/-- Initial live state used by concrete runs: all storage zero except
the target of descriptor 0 (cfg.version), which holds 1, in millimeter
mode. -/
def st_c5 : MState :=
  { vals := fun j => if j = 0 then 1 else 0
    spu := fun _ => 0
    units := .mm
    nvm := fun _ => 0
    ext := fun _ => 0 }

/-- Zero environment for header constants, used by concrete runs. -/
def env0 : String → ℚ := fun _ => 0

/-- Claim C5, counterexample. Descriptor 0 ("fc", config_version) is a
singleton (index below the group and status regions) whose SET binding
is the no-op _set_nul: setting 5 and reading back under the same unit
mode returns the prior stored value 1, which is neither 5 nor any
unit-converted or narrowed image of 5. -/
theorem c5_counterexample :
    (cmd_get env0 0 (cmd_set env0 0 5 st_c5).1).1 = 1 ∧
    (1 : ℚ) ≠ 5 ∧ (1 : ℚ) ≠ asU8 5 ∧
    (1 : ℚ) ≠ 5 * MM_PER_INCH ∧ (1 : ℚ) ≠ 5 * INCH_PER_MM ∧
    (descrAt 0).setk = SetKind.nul ∧ 0 < CMD_INDEX_END_SINGLES := by
  have hset : (descrAt 0).setk = SetKind.nul := by decide
  have hget : (descrAt 0).getk = GetKind.dbl := by decide
  refine ⟨?_, by norm_num, ?_, ?_, ?_, hset, by decide⟩
  · simp [cmd_set, cmd_get, hset, hget, st_c5, show 0 < CMD_INDEX_MAX by decide]
  · have h5 : asU8 5 = 5 := by
      norm_num [asU8, truncQ]
    rw [h5]
    norm_num
  · norm_num [MM_PER_INCH]
  · norm_num [INCH_PER_MM]

/-- Claim C5 (amended): for every parameter index whose set binding
actually stores the value a matching get binding reads back (all plain
singleton stores; excluded are the write-protected _set_nul rows such
as fc/fv/fb/stat/vel/unit and the positions, the action rows sr and
gc, and the status-interval row si, whose set clamps and rescales),
set(i, x) followed by get(i) under the same unit mode yields x back
after the representation narrowing of the storage kind; unit conversion
cancels exactly. -/
theorem c5_theorem (env : String → ℚ) (i : ℕ) (st : MState) (v : ℚ)
    (hlt : i < CMD_INDEX_MAX) (hrt : roundtripKind (descrAt i)) :
    (cmd_get env i (cmd_set env i v st).1).1 = narrowOf (descrAt i).setk v := by
  rcases hrt with ⟨hs, hg | hg⟩ | ⟨hs, hg⟩ | ⟨hs, hg⟩ | ⟨hs, hg⟩ | ⟨hs, hg⟩ |
    ⟨hs, hg⟩ | ⟨hs, hg⟩ | ⟨hs, hg⟩
  · simp [cmd_set, cmd_get, hs, hg, hlt, upd, narrowOf]
  · simp [cmd_set, cmd_get, hs, hg, hlt, upd, narrowOf]
  · simp [cmd_set, cmd_get, hs, hg, hlt, upd, narrowOf]
  · simp [cmd_set, cmd_get, hs, hg, hlt, upd, narrowOf]
  · -- dbu: the set multiplies by MM_PER_INCH in inch mode and the get
    -- multiplies back by INCH_PER_MM
    rcases hu : st.units with - | -
    · simp [cmd_set, cmd_get, hs, hg, hlt, upd, narrowOf, hu, mul_assoc, mm_inch_inverse]
    · simp [cmd_set, cmd_get, hs, hg, hlt, upd, narrowOf, hu]
  · simp [cmd_set, cmd_get, hs, hg, hlt, upd, narrowOf]
  · -- sa: the steps-per-unit recomputation touches only the derived
    -- spu field, not the stored value
    rcases hmot : getMotor i with - | m
    · simp [cmd_set, cmd_get, hs, hg, hlt, upd, narrowOf, hmot]
    · simp [cmd_set, cmd_get, hs, hg, hlt, upd, narrowOf, hmot, setSPU]
  · rcases hmot : getMotor i with - | m
    · simp [cmd_set, cmd_get, hs, hg, hlt, upd, narrowOf, hmot]
    · simp [cmd_set, cmd_get, hs, hg, hlt, upd, narrowOf, hmot, setSPU]
  · simp [cmd_set, cmd_get, hs, hg, hlt, upd, narrowOf]

/-- Witness for c5_theorem: setting gpl (index 10, a uint8 row) to 1
and reading it back yields 1 (asU8 1 = 1). -/
theorem c5_witness :
    (cmd_get env0 10 (cmd_set env0 10 1 st_c5).1).1 = narrowOf (descrAt 10).setk 1 :=
  c5_theorem env0 10 st_c5 1 (by decide) (by decide)

/-! ## Claim C9: unit conversion at the get/set boundary -/

/-- Claim C9: for a unit-bearing (dbu) parameter, setting v in inch
mode and reading after switching to millimeter mode yields v * 25.4
exactly (hence within any floating-point tolerance); setting v in
millimeter mode and reading after switching to inch mode yields
v / 25.4 (v * INCH_PER_MM) exactly; and a change of the active unit
mode alone never alters the stored values or the durable store. -/
theorem c9_theorem (env : String → ℚ) (i : ℕ) (st : MState) (v : ℚ)
    (hlt : i < CMD_INDEX_MAX)
    (hk : (descrAt i).setk = .dbu ∧ (descrAt i).getk = .dbu) :
    (cmd_get env i (setUnitsMode .mm (cmd_set env i v (setUnitsMode .inch st)).1)).1 =
      v * MM_PER_INCH ∧
    (cmd_get env i (setUnitsMode .inch (cmd_set env i v (setUnitsMode .mm st)).1)).1 =
      v * INCH_PER_MM ∧
    ∀ u, (setUnitsMode u st).vals = st.vals ∧ (setUnitsMode u st).nvm = st.nvm := by
  refine ⟨?_, ?_, fun u => ⟨rfl, rfl⟩⟩
  · simp [cmd_set, cmd_get, hk.1, hk.2, hlt, setUnitsMode, upd]
  · simp [cmd_set, cmd_get, hk.1, hk.2, hlt, setUnitsMode, upd]

/-- Witness for c9_theorem at the dbu row xfr (index 50) with v = 2:
inch-set then mm-read yields 50.8, and an isolated mode change leaves
storage intact. -/
theorem c9_witness :
    (cmd_get env0 50 (setUnitsMode .mm (cmd_set env0 50 2 (setUnitsMode .inch st_c5)).1)).1 =
      2 * MM_PER_INCH ∧
    (setUnitsMode .inch st_c5).vals = st_c5.vals :=
  ⟨(c9_theorem env0 50 st_c5 2 (by decide) (by decide)).1,
    ((c9_theorem env0 50 st_c5 2 (by decide) (by decide)).2.2 .inch).1⟩

/-! ## Claim C6: axis group expansion (_get_grp) -/

/-- The `_get_grp` group expansion of config.c: scan every index
strictly below the group's own index (`for (i=0; i<grp_index; i++)`),
appending a child for every row whose token has the group token as a
leading substring (`strstr(token, grp) == token`), and stripping the
group prefix from the child's reported token
(`&cmd->token[strlen(grp)]`). Each child is fetched via cmd_get_cmd;
the chain is modelled as the list of (index, stripped token) pairs in
scan order — the fetched values are the cmd_get values at those
indices, which the membership claim does not mention. -/
def getGrp (grp : List Char) (grpIndex : ℕ) : List (ℕ × List Char) :=
  ((List.range grpIndex).filter (fun i => grp.isPrefixOf (descrAt i).token.toList)).map
    (fun i => (i, (descrAt i).token.toList.drop grp.length))

/-- The six axis-group rows of cfgArray with their tokens. -/
def axisGroups : List (ℕ × String) :=
  [(188, "x"), (189, "y"), (190, "z"), (191, "a"), (192, "b"), (193, "c")]

/-- Claim C6: expanding an axis group produces a chain containing
exactly those descriptors whose index is strictly below the group's
own index and whose token begins with the axis letter, and no others;
children appear in ascending index order and each child's reported
token has the group prefix stripped. -/
theorem c6_theorem (gi : ℕ) (g : String) (hax : (gi, g) ∈ axisGroups) :
    (∀ p : ℕ × List Char,
      p ∈ getGrp g.toList gi ↔
        (p.1 < gi ∧ g.toList.isPrefixOf (descrAt p.1).token.toList ∧
          p.2 = (descrAt p.1).token.toList.drop g.toList.length)) ∧
    (getGrp g.toList gi).Pairwise (fun p q => p.1 < q.1) := by
  constructor
  · intro p
    simp only [getGrp, List.mem_map, List.mem_filter, List.mem_range]
    constructor
    · rintro ⟨i, ⟨hi, hq⟩, rfl⟩
      exact ⟨hi, hq, rfl⟩
    · rintro ⟨h1, h2, h3⟩
      refine ⟨p.1, ⟨h1, h2⟩, ?_⟩
      cases p with
      | mk a b =>
        simp only at h3
        simp [h3]
  · rw [getGrp, List.pairwise_map]
    exact List.Pairwise.filter _ (List.pairwise_lt_range gi)

/-- Witness for c6_theorem: xam (index 49) appears in the expansion of
the x axis group (index 188) with the stripped token "am". -/
theorem c6_witness : (49, "am".toList) ∈ getGrp "x".toList 188 :=
  ((c6_theorem 188 "x" (by decide)).1 (49, "am".toList)).mpr (by decide)

/-! ## The command-line parser (_parse_config_string, cfg_config_parse) -/

/-- Status codes of the config.c paths the claims observe. -/
inductive Status where
  | ok | unrecognizedCommand
  deriving DecidableEq, Repr

/-- Parsed command object as built by _parse_config_string. -/
structure CmdObj where
  index : ℕ
  name : List Char
  token : String
  value : ℚ
  vtype : VType
  deriving DecidableEq, Repr

/-- Digit test of the decimal grammar. -/
def isDig (c : Char) : Bool := '0' ≤ c ∧ c ≤ '9'

/-- Numeric value of one decimal digit character. -/
def digVal (c : Char) : ℕ := c.toNat - 48

/-- Value of a digit string. -/
def digitsVal (l : List Char) : ℕ := l.foldl (fun a c => 10 * a + digVal c) 0

/-- Value of a fractional digit string. -/
def fracVal (l : List Char) : ℚ := (digitsVal l : ℚ) / (10 ^ l.length)

/-- Decimal parse modelling the strtod call of _parse_config_string
(strtod is libc, outside the verified source): skip leading spaces and
tabs, optional sign, integer digits, optional fraction; succeeds when
at least one digit was consumed, matching strtod's endptr test
`tmp != str`. Exponents, hexadecimal, infinities and NaNs are not
modelled; no claim exercises them. -/
def parseNum (l : List Char) : Option ℚ :=
  let l1 := l.dropWhile (fun c => c = ' ' ∨ c = '\t')
  let sl : ℚ × List Char :=
    match l1 with
    | '-' :: r => (-1, r)
    | '+' :: r => (1, r)
    | _ => (1, l1)
  let ip := sl.2.takeWhile isDig
  let r2 := sl.2.dropWhile isDig
  let fp :=
    match r2 with
    | '.' :: r => r.takeWhile isDig
    | _ => []
  if ip.length = 0 ∧ fp.length = 0 then none
  else some (sl.1 * ((digitsVal ip : ℚ) + fracVal fp))

/-- The separator set of _parse_config_string:
`char separators[] = " =:|\t"`. -/
def SEPS : List Char := [' ', '=', ':', '|', '\t']

/-- Preprocessing of _parse_config_string: drop one leading dollar
sign, then lowercase every character in place. -/
def preprocess (l : List Char) : List Char :=
  (match l with
    | '$' :: r => r
    | _ => l).map Char.toLower

/-- Field split of _parse_config_string: strpbrk finds the first
separator occurrence; without one the whole string becomes the name
and there is no value field; with one, the name is the text before it
and strtod parses the text after it. `none` in the second component
embeds strtod consuming nothing, which leaves the object's value type
NULL. The CMD_NAME_LEN truncation of strncpy is not modelled. -/
def splitFields (p : List Char) : List Char × Option ℚ :=
  match findIdxO (fun c => SEPS.contains c) p with
  | none => (p, none)
  | some k => (p.take k, parseNum (p.drop (k + 1)))

/-- `_parse_config_string`: preprocess, split, resolve the name through
cmd_get_index, fetch the token, and force the parent type for indices
at or beyond CMD_INDEX_START_GROUPS. Resolution failure is the
TG_UNRECOGNIZED_COMMAND early return. -/
def parse_config_string (l : List Char) : Except Status CmdObj :=
  let p := preprocess l
  let fields := splitFields p
  match cmd_get_index fields.1 with
  | none => .error .unrecognizedCommand
  | some i =>
      .ok { index := i
            name := fields.1
            token := (descrAt i).token
            value := fields.2.getD 0
            vtype :=
              if CMD_INDEX_START_GROUPS ≤ i then .parent
              else if fields.2.isSome then .float else .null }

/-- Observable actions of one engine call, in order. -/
inductive Op where
  | setOp (i : ℕ)
  | nvmWrite (i : ℕ) (v : ℚ)
  deriving DecidableEq, Repr

/-- `cmd_write_NVM_value`: bounds-checked single-slot durable write. -/
def cmd_write_NVM_value (i : ℕ) (v : ℚ) (st : MState) : MState :=
  if i < CMD_INDEX_MAX then { st with nvm := upd st.nvm i v } else st

/-- `cmd_read_NVM_value`: bounds-checked single-slot durable read. -/
def cmd_read_NVM_value (i : ℕ) (st : MState) : Option ℚ :=
  if i < CMD_INDEX_MAX then some (st.nvm i) else none

/-- `cfg_config_parse`: parse the line; for a value-bearing non-group
object (value type neither parent nor null), set the single value and
persist the object's value right away through cmd_write_NVM_value; the
final cmd_print only reads state and is elided. Returns the status,
the resulting machine state, and the trace of set and durable-write
actions performed, in order. -/
def cfg_config_parse (env : String → ℚ) (st : MState) (l : List Char) :
    Status × MState × List Op :=
  match parse_config_string l with
  | .error e => (e, st, [])
  | .ok cmd =>
      if cmd.vtype ≠ .parent ∧ cmd.vtype ≠ .null then
        let s1 := cmd_set env cmd.index cmd.value st
        let st2 := cmd_write_NVM_value cmd.index s1.2 s1.1
        (.ok, st2, [.setOp cmd.index, .nvmWrite cmd.index s1.2])
      else (.ok, st, [])

/-! ## Claim C7: line splitting -/

theorem findIdxO_takeWhile {α : Type} (p q : α → Bool) (hq : ∀ a, q a = !p a)
    (l : List α) :
    (findIdxO p l = none → l.takeWhile q = l) ∧
    (∀ k, findIdxO p l = some k →
      k = (l.takeWhile q).length ∧ k < l.length ∧ l.take k = l.takeWhile q) := by
  induction l with
  | nil => simp [findIdxO]
  | cons a l ih =>
    cases hpa : p a with
    | true =>
      have hqa : q a = false := by rw [hq, hpa]; rfl
      constructor
      · intro h
        simp [findIdxO, hpa] at h
      · intro k hk
        simp only [findIdxO, hpa, if_true, Option.some.injEq] at hk
        subst hk
        simp [List.takeWhile_cons, hqa]
    | false =>
      have hqa : q a = true := by rw [hq, hpa]; rfl
      constructor
      · intro h
        simp only [findIdxO, hpa, if_false, Bool.false_eq_true, Option.map_eq_none'] at h
        simp [List.takeWhile_cons, hqa, ih.1 h]
      · intro k hk
        simp only [findIdxO, hpa, if_false, Bool.false_eq_true, Option.map_eq_some'] at hk
        obtain ⟨m, hm, hmk⟩ := hk
        obtain ⟨h1, h2, h3⟩ := ih.2 m hm
        subst hmk
        refine ⟨?_, ?_, ?_⟩
        · simp [List.takeWhile_cons, hqa, h1]
        · simp only [List.length_cons]
          omega
        · simp [List.takeWhile_cons, hqa, List.take_succ_cons, h3]

/-- Claim C7, counterexample. The line "xfr|1200" contains none of the
claimed separators (space, =, :, tab), so under the claim the whole
line would be the name of a pure query; the code's separator set also
contains the pipe character, so the parser splits at it, takes "xfr"
as the name and parses 1200 as a float value. -/
theorem c7_counterexample :
    (∀ c ∈ "xfr|1200".toList, ¬(c = ' ' ∨ c = '=' ∨ c = ':' ∨ c = '\t')) ∧
    (splitFields (preprocess "xfr|1200".toList)).1 = "xfr".toList ∧
    (splitFields (preprocess "xfr|1200".toList)).2 = some 1200 ∧
    parse_config_string "xfr|1200".toList =
      .ok ⟨50, "xfr".toList, "xfr", 1200, .float⟩ := by
  refine ⟨by decide, by decide, ?_, ?_⟩
  · simp +decide [splitFields, preprocess, parseNum, digitsVal, fracVal, digVal, isDig,
      SEPS, findIdxO]
  · simp +decide [parse_config_string, splitFields, preprocess, parseNum, digitsVal,
      fracVal, digVal, isDig, SEPS, findIdxO, cmd_get_index]

/-- Claim C7 (amended): after stripping an optional leading dollar and
lowercasing, the parser splits the line at the first occurrence of a
character in the set consisting of space, =, :, tab AND the pipe
character, and at no other character: the name is the longest
separator-free head of the processed line; when a separator exists the
text after it is parsed as a float, and when no number parses the
command object of a non-group index keeps the null value type (a pure
query) while a parsed number makes it a float carrying that value. -/
theorem c7_theorem (l : List Char) :
    (splitFields (preprocess l)).1 =
      (preprocess l).takeWhile (fun c => !(SEPS.contains c)) ∧
    (splitFields (preprocess l)).2 =
      (if ((preprocess l).takeWhile (fun c => !(SEPS.contains c))).length <
          (preprocess l).length
        then parseNum ((preprocess l).drop
          (((preprocess l).takeWhile (fun c => !(SEPS.contains c))).length + 1))
        else none) ∧
    ∀ cmd, parse_config_string l = .ok cmd →
      cmd.name = (splitFields (preprocess l)).1 ∧
      cmd.value = ((splitFields (preprocess l)).2).getD 0 ∧
      (cmd.index < CMD_INDEX_START_GROUPS →
        (cmd.vtype = .float ↔ ((splitFields (preprocess l)).2).isSome) ∧
        (cmd.vtype = .null ↔ (splitFields (preprocess l)).2 = none)) := by
  have H := findIdxO_takeWhile (fun c => SEPS.contains c)
    (fun c => !(SEPS.contains c)) (fun a => rfl) (preprocess l)
  have hsplit : (splitFields (preprocess l)).1 =
        (preprocess l).takeWhile (fun c => !(SEPS.contains c)) ∧
      (splitFields (preprocess l)).2 =
        (if ((preprocess l).takeWhile (fun c => !(SEPS.contains c))).length <
            (preprocess l).length
          then parseNum ((preprocess l).drop
            (((preprocess l).takeWhile (fun c => !(SEPS.contains c))).length + 1))
          else none) := by
    rw [splitFields]
    cases hf : findIdxO (fun c => SEPS.contains c) (preprocess l) with
    | none =>
      have htw := H.1 hf
      exact ⟨htw.symm, by rw [htw, if_neg (lt_irrefl _)]⟩
    | some k =>
      obtain ⟨h1, h2, h3⟩ := H.2 k hf
      refine ⟨h3, ?_⟩
      rw [← h1, if_pos h2]
  refine ⟨hsplit.1, hsplit.2, ?_⟩
  intro cmd hok
  rw [parse_config_string] at hok
  cases hres : cmd_get_index (splitFields (preprocess l)).1 with
  | none => simp [hres] at hok
  | some i =>
    simp only [hres, Except.ok.injEq] at hok
    subst hok
    refine ⟨rfl, rfl, ?_⟩
    intro hlt
    have hlt2 : i < CMD_INDEX_START_GROUPS := hlt
    have hni : ¬ CMD_INDEX_START_GROUPS ≤ i := by omega
    cases hv : ((splitFields (preprocess l)).2).isSome with
    | true =>
      simp [hni, hv, Option.isSome_iff_ne_none.mp hv]
    | false =>
      have hnone : (splitFields (preprocess l)).2 = none := by
        rcases ho : (splitFields (preprocess l)).2 with - | v
        · rfl
        · rw [ho] at hv
          simp at hv
      simp [hni, hnone]

/-- Witness for c7_theorem at the concrete line "$xvm=1200". -/
theorem c7_witness :
    (splitFields (preprocess "$xvm=1200".toList)).1 = "xvm".toList ∧
    parse_config_string "$xvm=1200".toList =
      .ok ⟨51, "xvm".toList, "xvm", 1200, .float⟩ := by
  constructor
  · exact (c7_theorem ("$xvm=1200".toList)).1.trans (by decide)
  · simp +decide [parse_config_string, splitFields, preprocess, parseNum, digitsVal,
      fracVal, digVal, isDig, SEPS, findIdxO, cmd_get_index]

/-! ## Claim C8: rejection of unresolvable lines -/

/-- Claim C8, counterexample. The claim offers "$zzz=5" as a line whose
name part resolves to no descriptor; in fact "zzz" resolves to index
190 — the z axis group row, whose 1-character token "z" is a leading
substring of "zzz" — so the command is accepted (status OK, treated as
a group query), not rejected as an unrecognized parameter. -/
theorem c8_counterexample :
    cmd_get_index ("zzz".toList) = some 190 ∧
    (descrAt 190).token = "z" ∧
    (descrAt 190).getk = GetKind.grp ∧
    (cfg_config_parse env0 st_c5 ("$zzz=5".toList)).1 = Status.ok ∧
    (cfg_config_parse env0 st_c5 ("$zzz=5".toList)).2.2 = [] := by
  refine ⟨by decide, by decide, by decide, ?_, ?_⟩ <;>
    simp +decide [cfg_config_parse, parse_config_string, splitFields, preprocess,
      parseNum, digitsVal, fracVal, digVal, isDig, SEPS, findIdxO, cmd_get_index]

/-- Claim C8 (amended): every command line whose name part (the text
left of the first separator, after dollar stripping and lowercasing)
resolves to no descriptor is rejected with the unrecognized-parameter
status before dispatch: the machine state — live storage and durable
store alike — is returned unchanged and no set or durable-write action
is performed, regardless of whether a numeric value was present. (The
example "$zzz=5" of the original claim is not such a line, since "zzz"
resolves to the z axis group; "$qq=5" is.) -/
theorem c8_theorem (env : String → ℚ) (st : MState) (l : List Char)
    (h : cmd_get_index (splitFields (preprocess l)).1 = none) :
    cfg_config_parse env st l = (.unrecognizedCommand, st, []) := by
  rw [cfg_config_parse, parse_config_string]
  simp [h]

/-- Witness for c8_theorem: "$qq=5" resolves to nothing and is
rejected without any state change or durable write. -/
theorem c8_witness :
    cfg_config_parse env0 st_c5 ("$qq=5".toList) = (.unrecognizedCommand, st_c5, []) :=
  c8_theorem env0 st_c5 ("$qq=5".toList) (by decide)

/-! ## Claim C10: scalar sets persist immediately -/

/-- Claim C10, counterexample. "group lines processed by this entry
point never trigger a durable write" fails at the boundary of the
group region: CMD_COUNT_GROUPS (17) undercounts the 18 group rows, so
CMD_INDEX_START_GROUPS = 181 while the first group row, g54, sits at
index 180. The line "$g54=5" therefore resolves to a group descriptor
yet is treated as a scalar set: its (empty-chain, hence storage-free)
set runs and a durable write of 5 to slot 180 is performed. -/
theorem c10_counterexample :
    parse_config_string ("$g54=5".toList) =
      .ok ⟨180, "g54".toList, "g54", 5, .float⟩ ∧
    (descrAt 180).getk = GetKind.grp ∧
    (descrAt 180).setk = SetKind.grp ∧
    CMD_INDEX_START_GROUPS = 181 ∧
    (cfg_config_parse env0 st_c5 ("$g54=5".toList)).2.2 =
      [Op.setOp 180, Op.nvmWrite 180 5] := by
  refine ⟨?_, by decide, by decide, by decide, ?_⟩ <;>
    simp +decide [cfg_config_parse, parse_config_string, splitFields, preprocess,
      parseNum, digitsVal, fracVal, digVal, isDig, SEPS, findIdxO, cmd_get_index,
      cmd_set, cmd_write_NVM_value]

/-- Claim C10 (amended): every command line that performs a
single-value set — resolved index below CMD_INDEX_START_GROUPS (which,
because CMD_COUNT_GROUPS undercounts the group rows by one, places the
first group row g54 on the scalar side of the boundary) and value kind
float — writes the command object's value as left by the in-memory set
to the durable slot at the resolved index, immediately after the set
in the action trace; pure-query lines (null kind) and parent lines
never trigger a durable write. -/
theorem c10_theorem (env : String → ℚ) (st : MState) (l : List Char) (cmd : CmdObj)
    (hok : parse_config_string l = .ok cmd) :
    (cmd.vtype = .float →
      cmd.index < CMD_INDEX_START_GROUPS ∧
      cfg_config_parse env st l =
        (.ok,
          cmd_write_NVM_value cmd.index (cmd_set env cmd.index cmd.value st).2
            (cmd_set env cmd.index cmd.value st).1,
          [.setOp cmd.index, .nvmWrite cmd.index (cmd_set env cmd.index cmd.value st).2])) ∧
    (cmd.vtype = .parent ∨ cmd.vtype = .null →
      cfg_config_parse env st l = (.ok, st, [])) := by
  constructor
  · intro hv
    constructor
    · -- a float-typed object can only come from an index below the
      -- group boundary, where the parent override does not fire
      rw [parse_config_string] at hok
      cases hres : cmd_get_index (splitFields (preprocess l)).1 with
      | none => simp [hres] at hok
      | some i =>
        simp only [hres, Except.ok.injEq] at hok
        subst hok
        simp only at hv ⊢
        by_contra hge
        rw [if_pos (by omega : CMD_INDEX_START_GROUPS ≤ i)] at hv
        exact absurd hv (by simp)
    · rw [cfg_config_parse, hok]
      simp [hv]
  · intro hv
    rw [cfg_config_parse, hok]
    rcases hv with hv | hv <;> simp [hv]

/-- Witness for c10_theorem: the line "$gpl=1" (index 10, uint8 row)
performs the set and then the durable write of 1 to slot 10. -/
theorem c10_witness :
    (cfg_config_parse env0 st_c5 ("$gpl=1".toList)).2.2 =
      [Op.setOp 10, Op.nvmWrite 10 1] := by
  have hok : parse_config_string ("$gpl=1".toList) =
      .ok ⟨10, "gpl".toList, "gpl", 1, .float⟩ := by
    simp +decide [parse_config_string, splitFields, preprocess, parseNum, digitsVal,
      fracVal, digVal, isDig, SEPS, findIdxO, cmd_get_index]
  have h := (c10_theorem env0 st_c5 ("$gpl=1".toList) _ hok).1 rfl
  rw [h.2]
  simp [cmd_set, show (descrAt 10).setk = SetKind.ui8 by decide,
    show (10 : ℕ) < CMD_INDEX_MAX by decide]

/-! ## Persistence and migration (cfg_init) -/

/-- Exclusion test of cfg_init: `strstr(exclusions, cmd_get_token(i))
!= NULL` with `char exclusions[] = "sr,gc"` — a token is skipped when
it occurs as a substring of "sr,gc"; over the tokens of the table this
holds exactly for "sr" (index 7) and "gc" (index 9). -/
def exclInit (i : ℕ) : Bool := decide ((descrAt i).token.toList <:+: "sr,gc".toList)

example : exclInit 7 = true ∧ exclInit 9 = true := by decide
example : (List.range CMD_INDEX_START_GROUPS).filter (fun i => exclInit i) = [7, 9] := by decide

/-- Value left in the command object's value field by cmd_set: only
_set_si rewrites it (clamping to the configured interval); every other
setter leaves it alone. -/
def postSetVal (env : String → ℚ) (i : ℕ) (v : ℚ) : ℚ :=
  if (descrAt i).setk = .si then siClamp env v else v

/-- Value a SET binding writes to its own target location, when it
writes one (the no-op, action and chain setters write none). -/
def liveStoreVal (env : String → ℚ) (u : UnitsMode) (k : SetKind) (v : ℚ) : Option ℚ :=
  match k with
  | .ui8 | .serial | .mi | .po => some (asU8 v)
  | .int => some (asU32 v)
  | .dbl | .sa => some v
  | .dbu => some (if u = .inch then v * MM_PER_INCH else v)
  | .si => some (siTicks env (siClamp env v))
  | .nul | .sr | .gcRun | .grp => none

theorem cmd_set_units (env : String → ℚ) (i : ℕ) (v : ℚ) (st : MState) :
    ((cmd_set env i v st).1).units = st.units := by
  unfold cmd_set
  split
  · split <;>
      first
        | rfl
        | (split <;> rfl)
  · rfl

theorem cmd_set_nvm (env : String → ℚ) (i : ℕ) (v : ℚ) (st : MState) :
    ((cmd_set env i v st).1).nvm = st.nvm := by
  unfold cmd_set
  split
  · split <;>
      first
        | rfl
        | (split <;> rfl)
  · rfl

theorem cmd_set_snd (env : String → ℚ) (i : ℕ) (v : ℚ) (st : MState)
    (hlt : i < CMD_INDEX_MAX) :
    (cmd_set env i v st).2 = postSetVal env i v := by
  unfold cmd_set
  rw [if_pos hlt, postSetVal]
  split <;> rename_i heq <;> simp [heq, apply_ite]

theorem cmd_set_vals_other (env : String → ℚ) (i : ℕ) (v : ℚ) (st : MState)
    (j : ℕ) (hj : j ≠ i) :
    ((cmd_set env i v st).1).vals j = st.vals j := by
  unfold cmd_set
  split
  · split <;>
      first
        | (split <;> simp [setSPU, upd, hj])
        | simp [upd, hj]
        | rfl
  · rfl

theorem cmd_set_vals_self (env : String → ℚ) (i : ℕ) (v : ℚ) (st : MState)
    (hlt : i < CMD_INDEX_MAX) :
    ((cmd_set env i v st).1).vals i =
      (liveStoreVal env st.units (descrAt i).setk v).getD (st.vals i) := by
  unfold cmd_set
  rw [if_pos hlt]
  split <;> rename_i heq <;>
    first
      | (split_ifs with hu <;> simp [heq, liveStoreVal, upd, hu])
      | (split <;> simp [heq, liveStoreVal, upd, setSPU])
      | simp [heq, liveStoreVal, upd]

/-- One pass of the version-mismatch loop of cfg_init at index i:
build a fresh object, skip excluded tokens, apply the compiled-in
default via cmd_set, durably write the object's value back
(cmd_write_NVM_value), and record the durable write. -/
def cfgInitStep (env : String → ℚ) (acc : MState × List (ℕ × ℚ)) (i : ℕ) :
    MState × List (ℕ × ℚ) :=
  if exclInit i then acc
  else
    let s1 := cmd_set env i (defVal env (descrAt i)) acc.1
    (cmd_write_NVM_value i s1.2 s1.1, acc.2 ++ [(i, s1.2)])

/-- One pass of the version-match loop of cfg_init: read the durable
slot, skip excluded tokens, apply the durable value via cmd_set. -/
def cfgLoadStep (env : String → ℚ) (st : MState) (i : ℕ) : MState :=
  if exclInit i then st else (cmd_set env i (st.nvm i) st).1

/-- `cfg_init`: force millimeter mode, stamp cfg.version (descriptor
0's live target) with the build number, read durable slot 0 and either
load every index of the region below CMD_INDEX_START_GROUPS from the
durable store (version match) or reset the same region to compiled
defaults, durably writing each value back (mismatch); the durable
writes performed are returned in order. rpt_init_status_report is an
external collaborator (report.c is not part of the verified source);
modelled from the spec, which treats the status-report formatter as a
consumer of the slot vector configured by this engine, it leaves the
registry state unchanged. -/
def cfg_init (env : String → ℚ) (build : ℚ) (st0 : MState) : MState × List (ℕ × ℚ) :=
  let st1 := setUnitsMode .mm st0
  let st2 := { st1 with vals := upd st1.vals 0 build }
  if st2.nvm 0 = build then
    ((List.range CMD_INDEX_START_GROUPS).foldl (cfgLoadStep env) st2, [])
  else
    (List.range CMD_INDEX_START_GROUPS).foldl (cfgInitStep env) (st2, [])

theorem cmd_write_components (i : ℕ) (v : ℚ) (st : MState) :
    (cmd_write_NVM_value i v st).units = st.units ∧
    (cmd_write_NVM_value i v st).vals = st.vals ∧
    (∀ j, j ≠ i → (cmd_write_NVM_value i v st).nvm j = st.nvm j) ∧
    (i < CMD_INDEX_MAX → (cmd_write_NVM_value i v st).nvm i = v) := by
  rw [cmd_write_NVM_value]
  split_ifs with hlt
  · exact ⟨rfl, rfl, fun j hj => upd_other _ _ _ _ hj, fun _ => upd_same _ _ _⟩
  · exact ⟨rfl, rfl, fun j hj => rfl, fun h => absurd h hlt⟩

theorem cfgInitStep_units (env : String → ℚ) (acc : MState × List (ℕ × ℚ)) (i : ℕ) :
    ((cfgInitStep env acc i).1).units = acc.1.units := by
  rw [cfgInitStep]
  split_ifs with hex
  · rfl
  · rw [(cmd_write_components _ _ _).1, cmd_set_units]

theorem cfgInitStep_vals_other (env : String → ℚ) (acc : MState × List (ℕ × ℚ))
    (i j : ℕ) (hj : j ≠ i) :
    ((cfgInitStep env acc i).1).vals j = acc.1.vals j := by
  rw [cfgInitStep]
  split_ifs with hex
  · rfl
  · rw [congrFun (cmd_write_components _ _ _).2.1 j, cmd_set_vals_other _ _ _ _ _ hj]

theorem cfgInitStep_nvm_other (env : String → ℚ) (acc : MState × List (ℕ × ℚ))
    (i j : ℕ) (hj : j ≠ i) :
    ((cfgInitStep env acc i).1).nvm j = acc.1.nvm j := by
  rw [cfgInitStep]
  split_ifs with hex
  · rfl
  · rw [(cmd_write_components _ _ _).2.2.1 j hj, congrFun (cmd_set_nvm _ _ _ _) j]

theorem cfgInit_fold_units (env : String → ℚ) (l : List ℕ) (acc : MState × List (ℕ × ℚ)) :
    ((l.foldl (cfgInitStep env) acc).1).units = acc.1.units := by
  induction l generalizing acc with
  | nil => rfl
  | cons a l ih =>
    rw [List.foldl_cons, ih, cfgInitStep_units]

theorem cfgInit_fold_vals_frame (env : String → ℚ) (l : List ℕ)
    (acc : MState × List (ℕ × ℚ)) (j : ℕ) (hj : j ∉ l) :
    ((l.foldl (cfgInitStep env) acc).1).vals j = acc.1.vals j := by
  induction l generalizing acc with
  | nil => rfl
  | cons a l ih =>
    rw [List.foldl_cons, ih _ (fun h => hj (List.mem_cons_of_mem a h)),
      cfgInitStep_vals_other]
    intro h
    exact hj (h ▸ List.mem_cons_self a l)

theorem cfgInit_fold_nvm_frame (env : String → ℚ) (l : List ℕ)
    (acc : MState × List (ℕ × ℚ)) (j : ℕ) (hj : j ∉ l) :
    ((l.foldl (cfgInitStep env) acc).1).nvm j = acc.1.nvm j := by
  induction l generalizing acc with
  | nil => rfl
  | cons a l ih =>
    rw [List.foldl_cons, ih _ (fun h => hj (List.mem_cons_of_mem a h)),
      cfgInitStep_nvm_other]
    intro h
    exact hj (h ▸ List.mem_cons_self a l)

theorem cfgInit_fold_writes (env : String → ℚ) (l : List ℕ)
    (acc : MState × List (ℕ × ℚ)) (hl : ∀ i ∈ l, i < CMD_INDEX_MAX) :
    (l.foldl (cfgInitStep env) acc).2 =
      acc.2 ++ (l.filter (fun i => !exclInit i)).map
        (fun i => (i, postSetVal env i (defVal env (descrAt i)))) := by
  induction l generalizing acc with
  | nil => simp
  | cons a l ih =>
    rw [List.foldl_cons]
    have ha : a < CMD_INDEX_MAX := hl a (List.mem_cons_self a l)
    cases hex : exclInit a with
    | true =>
      rw [ih _ (fun i hi => hl i (List.mem_cons_of_mem a hi))]
      simp [cfgInitStep, hex, List.filter_cons]
    | false =>
      rw [ih _ (fun i hi => hl i (List.mem_cons_of_mem a hi))]
      simp only [cfgInitStep, hex, Bool.false_eq_true, if_false, List.filter_cons,
        Bool.not_false, if_true, List.map_cons]
      rw [cmd_set_snd _ _ _ _ ha]
      simp

theorem cfgInit_fold_nvm (env : String → ℚ) (l : List ℕ)
    (acc : MState × List (ℕ × ℚ)) (j : ℕ) (hj : j ∈ l) (hnd : l.Nodup)
    (hjlt : j < CMD_INDEX_MAX) (hex : exclInit j = false) :
    ((l.foldl (cfgInitStep env) acc).1).nvm j =
      postSetVal env j (defVal env (descrAt j)) := by
  induction l generalizing acc with
  | nil => cases hj
  | cons a l ih =>
    rw [List.foldl_cons]
    by_cases hja : j = a
    · subst hja
      have hnotin : j ∉ l := (List.nodup_cons.mp hnd).1
      rw [cfgInit_fold_nvm_frame env l _ j hnotin, cfgInitStep, if_neg (by simp [hex])]
      simp only
      rw [(cmd_write_components _ _ _).2.2.2 hjlt, cmd_set_snd _ _ _ _ hjlt]
    · rcases List.mem_cons.mp hj with h | h
      · exact absurd h hja
      · exact ih _ h (List.nodup_cons.mp hnd).2

theorem cfgInit_fold_vals (env : String → ℚ) (l : List ℕ)
    (acc : MState × List (ℕ × ℚ)) (j : ℕ) (hj : j ∈ l) (hnd : l.Nodup)
    (hjlt : j < CMD_INDEX_MAX) (hex : exclInit j = false) :
    ((l.foldl (cfgInitStep env) acc).1).vals j =
      (liveStoreVal env acc.1.units (descrAt j).setk
        (defVal env (descrAt j))).getD (acc.1.vals j) := by
  induction l generalizing acc with
  | nil => cases hj
  | cons a l ih =>
    rw [List.foldl_cons]
    by_cases hja : j = a
    · subst hja
      have hnotin : j ∉ l := (List.nodup_cons.mp hnd).1
      rw [cfgInit_fold_vals_frame env l _ j hnotin, cfgInitStep, if_neg (by simp [hex])]
      simp only
      rw [congrFun (cmd_write_components _ _ _).2.1 j, cmd_set_vals_self _ _ _ _ hjlt]
    · rcases List.mem_cons.mp hj with h | h
      · exact absurd h hja
      · rw [ih _ h (List.nodup_cons.mp hnd).2, cfgInitStep_units,
          cfgInitStep_vals_other env acc a j hja]

/-! ## Claims C1 and C2: default migration and write order -/

theorem asU8_natCast (n : ℕ) (h : n < 256) : asU8 (n : ℚ) = n := by
  rw [asU8, truncQ, if_pos (by positivity), Int.floor_natCast,
    Int.emod_eq_of_lt (by positivity) (by exact_mod_cast h)]
  norm_num

theorem asU32_natCast (n : ℕ) (h : n < 4294967296) : asU32 (n : ℚ) = n := by
  rw [asU32, truncQ, if_pos (by positivity), Int.floor_natCast,
    Int.emod_eq_of_lt (by positivity) (by exact_mod_cast h)]
  norm_num

/-- The state after the pre-loop lines of cfg_init: millimeter mode
forced and cfg.version (descriptor 0's target) stamped with tg.build. -/
def stampedState (build : ℚ) (st0 : MState) : MState :=
  { setUnitsMode .mm st0 with vals := upd (setUnitsMode .mm st0).vals 0 build }

theorem cfg_init_mismatch (env : String → ℚ) (build : ℚ) (st0 : MState)
    (hmis : st0.nvm 0 ≠ build) :
    cfg_init env build st0 =
      (List.range CMD_INDEX_START_GROUPS).foldl (cfgInitStep env)
        (stampedState build st0, []) := by
  rw [cfg_init]
  exact if_neg hmis

/-- SET bindings that store the command value directly into their
target (up to representation narrowing and the inch conversion):
everything except the no-op, action, chain and interval-rescaling
setters. -/
def directStore (k : SetKind) : Bool :=
  match k with
  | .ui8 | .int | .dbl | .dbu | .serial | .sa | .mi | .po => true
  | .nul | .sr | .si | .gcRun | .grp => false

/-- A default value representable by its row's storage kind: narrowing
to uint8/uint32 is the identity, and the status-report interval default
lies inside its clamp range. Firmware defaults satisfy this by
construction. -/
def reprDefaultVal (env : String → ℚ) (k : SetKind) (v : ℚ) : Prop :=
  match k with
  | .ui8 | .serial | .mi | .po => asU8 v = v
  | .int => asU32 v = v
  | .si => siClamp env v = v
  | _ => True

/-- Claim C1 (amended): when the durable version slot differs from the
running version (tg.build), cfg_init runs the bulk default reset over
indices 0 ≤ i < CMD_INDEX_START_GROUPS. Afterward, for every
non-excluded index (token not a substring of "sr,gc"), the durable
slot holds the compiled-in default, and the live target holds that
default for every such index whose SET binding stores its value
directly — the write-protected (_set_nul) rows such as stat keep their
prior live value, and si stores a rescaled tick count, so those are
excluded from the live-storage clause. The durable version slot ends
equal to the running version provided descriptor 0's compiled default
equals tg.build (TINYG_CONFIG_VERSION is defined in a header outside
the verified source; the spec makes the version stamp the running
firmware version, and defaults are assumed representable for their
storage kind). -/
theorem c1_theorem (env : String → ℚ) (build : ℚ) (st0 : MState)
    (hmis : st0.nvm 0 ≠ build)
    (hrepr : ∀ i, i < CMD_INDEX_START_GROUPS →
      reprDefaultVal env (descrAt i).setk (defVal env (descrAt i)))
    (hver : defVal env (descrAt 0) = build) :
    (∀ i, i < CMD_INDEX_START_GROUPS → exclInit i = false →
      directStore (descrAt i).setk = true →
      ((cfg_init env build st0).1).vals i = defVal env (descrAt i)) ∧
    (∀ i, i < CMD_INDEX_START_GROUPS → exclInit i = false →
      ((cfg_init env build st0).1).nvm i = defVal env (descrAt i)) ∧
    ((cfg_init env build st0).1).nvm 0 = build := by
  have hle : CMD_INDEX_START_GROUPS ≤ CMD_INDEX_MAX := by decide
  have hnvm : ∀ i, i < CMD_INDEX_START_GROUPS → exclInit i = false →
      ((cfg_init env build st0).1).nvm i = defVal env (descrAt i) := by
    intro i hi hex
    rw [cfg_init_mismatch env build st0 hmis,
      cfgInit_fold_nvm env _ _ i (List.mem_range.mpr hi) (List.nodup_range _)
        (lt_of_lt_of_le hi hle) hex, postSetVal]
    split_ifs with hsi
    · have hr := hrepr i hi
      rw [hsi] at hr
      exact hr
    · rfl
  refine ⟨?_, hnvm, ?_⟩
  · intro i hi hex hds
    rw [cfg_init_mismatch env build st0 hmis,
      cfgInit_fold_vals env _ _ i (List.mem_range.mpr hi) (List.nodup_range _)
        (lt_of_lt_of_le hi hle) hex]
    have hr := hrepr i hi
    rcases hk : (descrAt i).setk
    all_goals
      first
        | (rw [hk] at hds
           exact absurd hds (by decide))
        | (rw [hk] at hr
           simp only [liveStoreVal, Option.getD_some]
           exact hr)
        | (simp only [liveStoreVal, Option.getD_some]
           rfl)
        | simp [liveStoreVal, stampedState, setUnitsMode]
  · have h0 := hnvm 0 (by decide) (by decide)
    rw [hver] at h0
    exact h0

/-- Initial state for concrete migration runs: the live machine-state
target of descriptor 4 (cm.machine_state) holds 7, every durable slot
holds 99, and the machine starts in inch mode. -/
def st_c1 : MState :=
  { vals := fun j => if j = 4 then 7 else 0
    spu := fun _ => 0
    units := .inch
    nvm := fun _ => 99
    ext := fun _ => 0 }

/-- Claim C1, counterexample. Running cfg_init against a mismatched
durable store (slots hold 99, build is 1), the non-excluded singleton
"stat" (index 4, compiled default 0) keeps its prior live value 7: its
SET binding is the no-op _set_nul, so the bulk reset never touches
machine_state, contradicting the claim that every non-excluded index
below the group region ends with its default in live storage. -/
theorem c1_counterexample :
    st_c1.nvm 0 ≠ (1 : ℚ) ∧
    4 < CMD_INDEX_START_GROUPS ∧
    exclInit 4 = false ∧
    (descrAt 4).token = "stat" ∧
    defVal env0 (descrAt 4) = 0 ∧
    ((cfg_init env0 1 st_c1).1).vals 4 = 7 ∧
    (7 : ℚ) ≠ 0 := by
  have hmis : st_c1.nvm 0 ≠ (1 : ℚ) := by
    simp only [st_c1]
    norm_num
  refine ⟨hmis, by decide, by decide, by decide, by decide, ?_, by norm_num⟩
  rw [cfg_init_mismatch env0 1 st_c1 hmis,
    cfgInit_fold_vals env0 _ _ 4 (by decide) (List.nodup_range _) (by decide) (by decide)]
  have hk : (descrAt 4).setk = SetKind.nul := by decide
  rw [hk]
  simp [liveStoreVal, stampedState, setUnitsMode, upd, st_c1]

/-- Witness for c1_theorem: with the zero environment (all header
defaults 0, build 0) and the mismatched store st_c1, the durable
version slot ends at the running version 0 and the live gpl target
(index 10, a direct uint8 store) ends at its default. -/
theorem c1_witness :
    ((cfg_init env0 0 st_c1).1).nvm 0 = 0 ∧
    ((cfg_init env0 0 st_c1).1).vals 10 = defVal env0 (descrAt 10) := by
  have hd0 : ∀ i, i < CMD_INDEX_START_GROUPS → defVal env0 (descrAt i) = 0 := by decide
  have hrepr : ∀ i, i < CMD_INDEX_START_GROUPS →
      reprDefaultVal env0 (descrAt i).setk (defVal env0 (descrAt i)) := by
    intro i hi
    rw [hd0 i hi]
    rcases hk : (descrAt i).setk
    all_goals
      first
        | exact trivial
        | (show asU8 0 = 0
           have := asU8_natCast 0 (by norm_num)
           simpa using this)
        | (show asU32 0 = 0
           have := asU32_natCast 0 (by norm_num)
           simpa using this)
        | (show siClamp env0 0 = 0
           simp [siClamp, env0])
  have hmis : st_c1.nvm 0 ≠ (0 : ℚ) := by
    simp only [st_c1]
    norm_num
  have H := c1_theorem env0 0 st_c1 hmis hrepr (by rfl)
  exact ⟨H.2.2, H.1 10 (by decide) (by decide) (by decide)⟩

/-- Claim C2, counterexample. In the version-mismatch bulk reset, the
durable writes happen in ascending index order over the non-excluded
indices: slot 0 is the FIRST durable write, written exactly once, and
the write for index 1 (non-excluded) comes strictly after it — the
version stamp is not overwritten last. -/
theorem c2_counterexample :
    st_c1.nvm 0 ≠ (1 : ℚ) ∧
    exclInit 1 = false ∧
    1 < CMD_INDEX_START_GROUPS ∧
    ((cfg_init env0 1 st_c1).2).map Prod.fst =
      (List.range CMD_INDEX_START_GROUPS).filter (fun i => !exclInit i) ∧
    (((cfg_init env0 1 st_c1).2).map Prod.fst).head? = some 0 ∧
    (((cfg_init env0 1 st_c1).2).map Prod.fst).tail.count 0 = 0 ∧
    (((cfg_init env0 1 st_c1).2).map Prod.fst).tail.count 1 = 1 := by
  have hmis : st_c1.nvm 0 ≠ (1 : ℚ) := by
    simp only [st_c1]
    norm_num
  have hmap : ((cfg_init env0 1 st_c1).2).map Prod.fst =
      (List.range CMD_INDEX_START_GROUPS).filter (fun i => !exclInit i) := by
    rw [cfg_init_mismatch env0 1 st_c1 hmis,
      cfgInit_fold_writes env0 _ _
        (fun i hi => lt_of_lt_of_le (List.mem_range.mp hi) (by decide))]
    simp only [List.nil_append, List.map_map]
    rw [show (Prod.fst ∘ fun i : ℕ => (i, postSetVal env0 i (defVal env0 (descrAt i)))) =
      id from rfl, List.map_id]
  refine ⟨hmis, by decide, by decide, hmap, ?_, ?_, ?_⟩ <;> rw [hmap] <;> decide

/-- Claim C2 (amended): during the version-mismatch bulk reset the
durable writes occur in ascending index order over the non-excluded
indices of the region below CMD_INDEX_START_GROUPS, so the version
stamp at slot 0 is overwritten FIRST — before, not after, the durable
write of every other non-excluded index — and never written again
afterwards. -/
theorem c2_theorem (env : String → ℚ) (build : ℚ) (st0 : MState)
    (hmis : st0.nvm 0 ≠ build) :
    (cfg_init env build st0).2 =
      ((List.range CMD_INDEX_START_GROUPS).filter (fun i => !exclInit i)).map
        (fun i => (i, postSetVal env i (defVal env (descrAt i)))) ∧
    ((cfg_init env build st0).2).head?.map Prod.fst = some 0 ∧
    ∀ p ∈ ((cfg_init env build st0).2).tail, p.1 ≠ 0 := by
  have hw : (cfg_init env build st0).2 =
      ((List.range CMD_INDEX_START_GROUPS).filter (fun i => !exclInit i)).map
        (fun i => (i, postSetVal env i (defVal env (descrAt i)))) := by
    rw [cfg_init_mismatch env build st0 hmis,
      cfgInit_fold_writes env _ _
        (fun i hi => lt_of_lt_of_le (List.mem_range.mp hi) (by decide))]
    simp
  refine ⟨hw, ?_, ?_⟩
  · rw [hw, List.head?_map,
      show ((List.range CMD_INDEX_START_GROUPS).filter (fun i => !exclInit i)).head? =
        some 0 by decide]
    rfl
  · rw [hw, ← List.map_tail]
    intro p hp
    obtain ⟨i, hi, hpi⟩ := List.mem_map.mp hp
    have hi0 : i ≠ 0 := by
      revert hi
      have : ∀ j ∈ ((List.range CMD_INDEX_START_GROUPS).filter
          (fun i => !exclInit i)).tail, j ≠ 0 := by decide
      exact fun hi => this i hi
    rw [← hpi]
    exact hi0

/-- Witness for c2_theorem: against the mismatched store st_c1, the
first durable write of the bulk reset is to slot 0. -/
theorem c2_witness :
    ((cfg_init env0 1 st_c1).2).head?.map Prod.fst = some 0 :=
  (c2_theorem env0 1 st_c1 (by simp only [st_c1]; norm_num)).2.1
